import Mathlib

/-!
# docker app install: the `runInstall` orchestration flow

A shallow embedding of `internal/commands/install.go`.  The function
`runInstall` is sequential Go code that calls a dozen collaborators which
live outside this source file (context store, bundle resolver, duffle's
claim store, claim constructor and install action, credential helpers).
Each collaborator is a field of `Env`; `runInstall` is translated statement
by statement and returns the error value of the Go function together with
the ordered log of the observable calls it made and the final state of the
installation store.

Conventions of the embedding:

* a Go call returning `(value, error)` is a function into `Except Error value`,
  a call returning only `error` a function into `Option Error`;
* `c` is a pointer in Go: `inst.Run` updates the claim through it, so `Run`
  returns the updated claim and line 137 stores that one;
* the installation store is a state of type `σ` that only
  `installationStore.Store` changes; the driver acts on the target
  orchestrator and the bundle resolver on the bundle store, neither of which
  is part of the state;
* the deferred `muteDockerCli` of line 71 only redirects the output of the
  docker CLI and is left out.
-/

set_option autoImplicit false

namespace DockerApp

/-- Go `error` values are represented by their message. -/
abbrev Error := String

/-- Declared parameter of a bundle: its name, its default value, if any, and
whether a value is required. -/
structure ParameterDefinition where
  Name : String
  Default : Option String
  Required : Bool
  deriving DecidableEq, Repr

/-- The fields of duffle's `bundle.Bundle` that `runInstall` and the
parameter merger read. -/
structure Bundle where
  Name : String
  Parameters : List ParameterDefinition
  Credentials : List String
  deriving DecidableEq, Repr

/-- Values of `claim.Result.Action`. -/
inductive Action where
  | unknown
  | install
  | upgrade
  | uninstall
  deriving DecidableEq, Repr

/-- Values of `claim.Result.Status`. -/
inductive Status where
  | unknown
  | success
  | failure
  deriving DecidableEq, Repr

/-- The installation record, duffle's `claim.Claim`: the name it is keyed by,
the bundle it refers to (a nil pointer until line 113 assigns it), the merged
parameter values and the last action with its status. -/
structure Claim where
  Name : String
  Bundle : Option Bundle
  Parameters : List (String × String)
  ResultAction : Action
  ResultStatus : Status
  deriving DecidableEq, Repr

/-- A resolved credential set: credential name to value. -/
abbrev CredentialSet := List (String × String)

/-- The fields of `installOptions` (lines 15-23, with the embedded option
groups flattened) that `runInstall` reads.  The command-line overrides are kept
as the key and value pairs they denote. -/
structure installOptions where
  parametersFiles : List String
  overrides : List (String × String)
  targetContext : String
  credentialsets : List String
  sendRegistryAuth : Bool
  insecureRegistries : List String
  pull : Bool
  orchestrator : String
  kubeNamespace : String
  stackName : String
  deriving DecidableEq, Repr

/-- The functional options handed to `mergeBundleParameters` at lines 116-119. -/
inductive mergeBundleOpt where
  | withFileParameters (parametersFiles : List String)
  | withCommandLineParameters (overrides : List (String × String))
  | withOrchestratorParameters (orchestrator kubeNamespace : String)
  | withSendRegistryAuth (sendRegistryAuth : Bool)
  deriving DecidableEq, Repr

/-- What `inst.Run(c, creds, out)` leaves behind: the claim it updated through
the pointer `c`, the error it returned, and the text the driver wrote into
`errBuf`. -/
structure RunResult where
  claim : Claim
  err : Option Error
  errBuf : String
  deriving DecidableEq, Repr

/-- The collaborators of `runInstall`.  `σ` is the state of the installation
store, `β` the bind-mount description, `δ` the driver. -/
structure Env (σ β δ : Type) where
  /-- Go's `%q` verb on a string. -/
  quote : String → String
  /-- The method `opts.SetDefaultTargetContext(dockerCli)`, on the target context. -/
  SetDefaultTargetContext : String → String
  requiredBindMount : String → String → Except Error β
  prepareStores : String → Except Error Unit
  resolveBundle : String → Bool → List String → Except Error Bundle
  /-- The method `bndl.Validate()`. -/
  Validate : Bundle → Option Error
  /-- The method `installationStore.Read(name)`. -/
  Read : σ → String → Except Error Claim
  isInstallationFailed : Claim → Bool
  /-- The constructor `claim.New(name)`. -/
  claimNew : String → Except Error Claim
  prepareDriver : β → Except Error δ
  mergeBundleParameters : Claim → List mergeBundleOpt → Except Error Claim
  prepareCredentialSet : Bundle → installOptions → Except Error CredentialSet
  /-- The function `credentials.Validate(creds, bndl.Credentials)`. -/
  credentialsValidate : CredentialSet → List String → Option Error
  /-- The method `inst.Run(c, creds, dockerCli.Out())` with `inst.Driver = driverImpl`. -/
  Run : δ → Claim → CredentialSet → RunResult
  /-- The method `installationStore.Store(c)`: the new store state and the error returned. -/
  Store : σ → Claim → σ × Option Error

/-- The observable calls of one run, each with what it returned. -/
inductive Event where
  | read (name : String) (result : Except Error Claim)
  | warning (text : String)
  | claimNew (name : String)
  | run (c : Claim) (result : RunResult)
  | store (c : Claim) (result : Option Error)

/-- Result of one call of `runInstall`: the returned error (`none` is Go's
`nil`), the log of observable calls in program order, and the installation
store afterwards. -/
structure Outcome (σ : Type) where
  err : Option Error
  trace : List Event
  store : σ

/-- Line 90-93: `--name` when it is not empty, the bundle's name otherwise. -/
def installationNameOf (opts : installOptions) (bndl : Bundle) : String :=
  if opts.stackName = "" then bndl.Name else opts.stackName

/-- Line 97: the text written to standard error. -/
def overrideWarning (quote : String → String) (installationName : String) : String :=
  "WARNING: installing over previously failed installation " ++ quote installationName ++ "\n"

/-- Line 101: the error of the guard. -/
def alreadyExistsError (quote : String → String) (installationName : String) : Error :=
  "Installation " ++ quote installationName ++ " already exists, use 'docker app upgrade' instead"

/-- Line 139: the error returned when the action failed. -/
def installFailedError (errBuf : String) : Error :=
  "install failed: " ++ errBuf

/-- Lines 115-120: the options `runInstall` passes to `mergeBundleParameters`, in order. -/
def installMergeOpts (opts : installOptions) : List mergeBundleOpt :=
  [ mergeBundleOpt.withFileParameters opts.parametersFiles,
    mergeBundleOpt.withCommandLineParameters opts.overrides,
    mergeBundleOpt.withOrchestratorParameters opts.orchestrator opts.kubeNamespace,
    mergeBundleOpt.withSendRegistryAuth opts.sendRegistryAuth ]

/-- Lines 94-103: the guard.  It logs the lookup, and then either lets the
install go on (with the warning, over a failed installation, or silently when
`Read` returned an error) or rejects it. -/
def installGuard {σ β δ : Type} (env : Env σ β δ) (s : σ) (installationName : String) :
    Except Error (List Event) :=
  match env.Read s installationName with
  | .ok installation =>
    if env.isInstallationFailed installation then
      .ok [Event.read installationName (.ok installation),
           Event.warning (overrideWarning env.quote installationName)]
    else
      .error (alreadyExistsError env.quote installationName)
  | .error e => .ok [Event.read installationName (.error e)]

/-- Line 72: the options after `opts.SetDefaultTargetContext(dockerCli)`. -/
def targetOpts {σ β δ : Type} (env : Env σ β δ) (opts0 : installOptions) : installOptions :=
  { opts0 with targetContext := env.SetDefaultTargetContext opts0.targetContext }

/-- Lines 70-142.  Each `match` is one call of the Go function with its
`if err != nil { return err }`; the numbers are the lines of the calls. -/
def runInstall {σ β δ : Type} (env : Env σ β δ) (s : σ) (appname : String)
    (opts0 : installOptions) : Outcome σ :=
  -- 72
  let opts := targetOpts env opts0
  -- 74
  match env.requiredBindMount opts.targetContext opts.orchestrator with
  | .error err => ⟨some err, [], s⟩
  | .ok bind =>
  -- 78
  match env.prepareStores opts.targetContext with
  | .error err => ⟨some err, [], s⟩
  | .ok _ =>
  -- 83
  match env.resolveBundle appname opts.pull opts.insecureRegistries with
  | .error err => ⟨some err, [], s⟩
  | .ok bndl =>
  -- 87
  match env.Validate bndl with
  | some err => ⟨some err, [], s⟩
  | none =>
  -- 90-93
  let installationName := installationNameOf opts bndl
  -- 94-103
  match installGuard env s installationName with
  | .error err =>
    ⟨some err, [Event.read installationName (env.Read s installationName)], s⟩
  | .ok seen =>
  -- 104
  match env.claimNew installationName with
  | .error err => ⟨some err, seen ++ [Event.claimNew installationName], s⟩
  | .ok c0 =>
  -- 109
  match env.prepareDriver bind with
  | .error err => ⟨some err, seen ++ [Event.claimNew installationName], s⟩
  | .ok driverImpl =>
  -- 113
  let c1 := { c0 with Bundle := some bndl }
  -- 115-122
  match env.mergeBundleParameters c1 (installMergeOpts opts) with
  | .error err => ⟨some err, seen ++ [Event.claimNew installationName], s⟩
  | .ok c2 =>
  -- 123
  match env.prepareCredentialSet bndl opts with
  | .error err => ⟨some err, seen ++ [Event.claimNew installationName], s⟩
  | .ok creds =>
  -- 127
  match env.credentialsValidate creds bndl.Credentials with
  | some err => ⟨some err, seen ++ [Event.claimNew installationName], s⟩
  | none =>
  -- 131-134
  let r := env.Run driverImpl c2 creds
  -- 137
  let w := env.Store s r.claim
  let log := seen ++ [Event.claimNew installationName, Event.run c2 r, Event.store r.claim w.2]
  -- 138-141
  match r.err with
  | some _ => ⟨some (installFailedError r.errBuf), log, w.1⟩
  | none => ⟨w.2, log, w.1⟩

/-! ## The exit paths of `runInstall`

A relational reading of the same code: one rule per `return` statement, with
the conditions under which control reaches it. -/

/-- The places at which `runInstall` can return. -/
inductive Step where
  | bindMount
  | stores
  | resolve
  | validate
  | guard
  | claim
  | driver
  | merge
  | credentialSet
  | credentialValidate
  | action
  | persist
  deriving DecidableEq, Repr

/-- The steps that come before `inst.Run` (lines 74-129). -/
def Step.beforeAction : Step → Bool
  | .action => false
  | .persist => false
  | _ => true

/-- Lines 74-89 all succeeded: target, stores, bundle and its validation. -/
def BundleResolved {σ β δ : Type} (env : Env σ β δ) (appname : String) (opts : installOptions)
    (bind : β) (bndl : Bundle) : Prop :=
  env.requiredBindMount opts.targetContext opts.orchestrator = .ok bind ∧
  env.prepareStores opts.targetContext = .ok () ∧
  env.resolveBundle appname opts.pull opts.insecureRegistries = .ok bndl ∧
  env.Validate bndl = none

/-- Lines 74-103 all succeeded: the guard let the install through, having logged `seen`. -/
def GuardPassed {σ β δ : Type} (env : Env σ β δ) (s : σ) (appname : String)
    (opts : installOptions) (bind : β) (bndl : Bundle) (seen : List Event) : Prop :=
  BundleResolved env appname opts bind bndl ∧
  installGuard env s (installationNameOf opts bndl) = .ok seen

/-- Lines 74-129 all succeeded: the run is about to call `inst.Run` on claim
`c2` with credentials `creds` and driver `driverImpl`. -/
def ConfigBuilt {σ β δ : Type} (env : Env σ β δ) (s : σ) (appname : String)
    (opts : installOptions) (bndl : Bundle) (seen : List Event) (driverImpl : δ) (c2 : Claim)
    (creds : CredentialSet) : Prop :=
  ∃ (bind : β) (c0 : Claim),
    GuardPassed env s appname opts bind bndl seen ∧
    env.claimNew (installationNameOf opts bndl) = .ok c0 ∧
    env.prepareDriver bind = .ok driverImpl ∧
    env.mergeBundleParameters { c0 with Bundle := some bndl } (installMergeOpts opts) = .ok c2 ∧
    env.prepareCredentialSet bndl opts = .ok creds ∧
    env.credentialsValidate creds bndl.Credentials = none

/-- The log of a run that went through the action and the store write. -/
def fullLog {σ β δ : Type} (env : Env σ β δ) (s : σ) (installationName : String)
    (seen : List Event) (c2 : Claim) (r : RunResult) : List Event :=
  seen ++ [Event.claimNew installationName, Event.run c2 r,
           Event.store r.claim (env.Store s r.claim).2]

/-- The relation `Exit env s appname opts0 step o`: the run returns at `step` with outcome `o`. -/
inductive Exit {σ β δ : Type} (env : Env σ β δ) (s : σ) (appname : String)
    (opts0 : installOptions) : Step → Outcome σ → Prop where
  | bindMount (e : Error)
      (h : env.requiredBindMount (targetOpts env opts0).targetContext
            (targetOpts env opts0).orchestrator = .error e) :
      Exit env s appname opts0 .bindMount ⟨some e, [], s⟩
  | stores (bind : β) (e : Error)
      (h1 : env.requiredBindMount (targetOpts env opts0).targetContext
            (targetOpts env opts0).orchestrator = .ok bind)
      (h : env.prepareStores (targetOpts env opts0).targetContext = .error e) :
      Exit env s appname opts0 .stores ⟨some e, [], s⟩
  | resolve (bind : β) (e : Error)
      (h1 : env.requiredBindMount (targetOpts env opts0).targetContext
            (targetOpts env opts0).orchestrator = .ok bind)
      (h2 : env.prepareStores (targetOpts env opts0).targetContext = .ok ())
      (h : env.resolveBundle appname (targetOpts env opts0).pull
            (targetOpts env opts0).insecureRegistries = .error e) :
      Exit env s appname opts0 .resolve ⟨some e, [], s⟩
  | validate (bind : β) (bndl : Bundle) (e : Error)
      (h1 : env.requiredBindMount (targetOpts env opts0).targetContext
            (targetOpts env opts0).orchestrator = .ok bind)
      (h2 : env.prepareStores (targetOpts env opts0).targetContext = .ok ())
      (h3 : env.resolveBundle appname (targetOpts env opts0).pull
            (targetOpts env opts0).insecureRegistries = .ok bndl)
      (h : env.Validate bndl = some e) :
      Exit env s appname opts0 .validate ⟨some e, [], s⟩
  | guard (bind : β) (bndl : Bundle) (e : Error)
      (h1 : BundleResolved env appname (targetOpts env opts0) bind bndl)
      (h : installGuard env s (installationNameOf (targetOpts env opts0) bndl) = .error e) :
      Exit env s appname opts0 .guard
        ⟨some e, [Event.read (installationNameOf (targetOpts env opts0) bndl)
                    (env.Read s (installationNameOf (targetOpts env opts0) bndl))], s⟩
  | claim (bind : β) (bndl : Bundle) (seen : List Event) (e : Error)
      (h1 : GuardPassed env s appname (targetOpts env opts0) bind bndl seen)
      (h : env.claimNew (installationNameOf (targetOpts env opts0) bndl) = .error e) :
      Exit env s appname opts0 .claim
        ⟨some e, seen ++ [Event.claimNew (installationNameOf (targetOpts env opts0) bndl)], s⟩
  | driver (bind : β) (bndl : Bundle) (seen : List Event) (c0 : Claim) (e : Error)
      (h1 : GuardPassed env s appname (targetOpts env opts0) bind bndl seen)
      (h2 : env.claimNew (installationNameOf (targetOpts env opts0) bndl) = .ok c0)
      (h : env.prepareDriver bind = .error e) :
      Exit env s appname opts0 .driver
        ⟨some e, seen ++ [Event.claimNew (installationNameOf (targetOpts env opts0) bndl)], s⟩
  | merge (bind : β) (bndl : Bundle) (seen : List Event) (c0 : Claim) (driverImpl : δ) (e : Error)
      (h1 : GuardPassed env s appname (targetOpts env opts0) bind bndl seen)
      (h2 : env.claimNew (installationNameOf (targetOpts env opts0) bndl) = .ok c0)
      (h3 : env.prepareDriver bind = .ok driverImpl)
      (h : env.mergeBundleParameters { c0 with Bundle := some bndl }
            (installMergeOpts (targetOpts env opts0)) = .error e) :
      Exit env s appname opts0 .merge
        ⟨some e, seen ++ [Event.claimNew (installationNameOf (targetOpts env opts0) bndl)], s⟩
  | credentialSet (bind : β) (bndl : Bundle) (seen : List Event) (c0 c2 : Claim)
      (driverImpl : δ) (e : Error)
      (h1 : GuardPassed env s appname (targetOpts env opts0) bind bndl seen)
      (h2 : env.claimNew (installationNameOf (targetOpts env opts0) bndl) = .ok c0)
      (h3 : env.prepareDriver bind = .ok driverImpl)
      (h4 : env.mergeBundleParameters { c0 with Bundle := some bndl }
            (installMergeOpts (targetOpts env opts0)) = .ok c2)
      (h : env.prepareCredentialSet bndl (targetOpts env opts0) = .error e) :
      Exit env s appname opts0 .credentialSet
        ⟨some e, seen ++ [Event.claimNew (installationNameOf (targetOpts env opts0) bndl)], s⟩
  | credentialValidate (bind : β) (bndl : Bundle) (seen : List Event) (c0 c2 : Claim)
      (driverImpl : δ) (creds : CredentialSet) (e : Error)
      (h1 : GuardPassed env s appname (targetOpts env opts0) bind bndl seen)
      (h2 : env.claimNew (installationNameOf (targetOpts env opts0) bndl) = .ok c0)
      (h3 : env.prepareDriver bind = .ok driverImpl)
      (h4 : env.mergeBundleParameters { c0 with Bundle := some bndl }
            (installMergeOpts (targetOpts env opts0)) = .ok c2)
      (h5 : env.prepareCredentialSet bndl (targetOpts env opts0) = .ok creds)
      (h : env.credentialsValidate creds bndl.Credentials = some e) :
      Exit env s appname opts0 .credentialValidate
        ⟨some e, seen ++ [Event.claimNew (installationNameOf (targetOpts env opts0) bndl)], s⟩
  | action (bndl : Bundle) (seen : List Event) (driverImpl : δ) (c2 : Claim)
      (creds : CredentialSet) (e : Error)
      (h1 : ConfigBuilt env s appname (targetOpts env opts0) bndl seen driverImpl c2 creds)
      (h : (env.Run driverImpl c2 creds).err = some e) :
      Exit env s appname opts0 .action
        ⟨some (installFailedError (env.Run driverImpl c2 creds).errBuf),
         fullLog env s (installationNameOf (targetOpts env opts0) bndl) seen c2
           (env.Run driverImpl c2 creds),
         (env.Store s (env.Run driverImpl c2 creds).claim).1⟩
  | persist (bndl : Bundle) (seen : List Event) (driverImpl : δ) (c2 : Claim)
      (creds : CredentialSet)
      (h1 : ConfigBuilt env s appname (targetOpts env opts0) bndl seen driverImpl c2 creds)
      (h : (env.Run driverImpl c2 creds).err = none) :
      Exit env s appname opts0 .persist
        ⟨(env.Store s (env.Run driverImpl c2 creds).claim).2,
         fullLog env s (installationNameOf (targetOpts env opts0) bndl) seen c2
           (env.Run driverImpl c2 creds),
         (env.Store s (env.Run driverImpl c2 creds).claim).1⟩

/-! ## The parameter merger

`mergeBundleParameters` and the four `with...` options are functions of this
package that are declared in another file.  They are modelled here from
sections 3 and 4.3 of the specification. -/

/-- The names of the parameters the orchestrator step and the registry step
write: constants of package `internal`. -/
structure ReservedNames where
  orchestrator : String
  kubernetesNamespace : String
  shareRegistryCreds : String

/-- Writing one value into a parameter set: the key is bound to the new value only. -/
def setParam (k v : String) (cur : List (String × String)) : List (String × String) :=
  (k, v) :: cur.filter (fun p => p.1 != k)

/-- The bundle's declared parameter list. -/
def declaredNames (b : Bundle) : List String :=
  b.Parameters.map (fun p => p.Name)

/-- The lowest layer of the overlay: the bundle defaults. -/
def bundleDefaults (b : Bundle) : List (String × String) :=
  b.Parameters.filterMap (fun p => p.Default.map (fun d => (p.Name, d)))

/-- The value a list of supplied values gives to a key: the last one listed. -/
def supplied (vals : List (String × String)) (k : String) : Option String :=
  vals.reverse.lookup k

/-- Modelled from the spec: the overlay step of user-supplied values, part of
the merger that is declared in another file of the package (section 4.3: a step
may overwrite earlier values for the same key but fails with
`UnknownParameterError` when it targets a parameter the bundle does not
declare). -/
def overlayValues (b : Bundle) (vals : List (String × String)) (cur : List (String × String)) :
    Except Error (List (String × String)) :=
  match vals.find? (fun p => !(declaredNames b).contains p.1) with
  | some p => .error ("UnknownParameterError: " ++ p.1)
  | none => .ok (vals.foldl (fun acc p => setParam p.1 p.2 acc) cur)

/-- Modelled from the spec: the overlay step of an injected value, part of the
merger that is declared in another file of the package (section 4.3: a step must
not introduce a key absent from the bundle's declared parameter list). -/
def overlayInjected (b : Bundle) (k v : String) (cur : List (String × String)) :
    List (String × String) :=
  if (declaredNames b).contains k then setParam k v cur else cur

/-- Modelled from the spec: the four overlay steps `withFileParameters`,
`withCommandLineParameters`, `withOrchestratorParameters` and
`withSendRegistryAuth`, which are declared in another file of the package
(section 3, Parameter Overlay; section 4.3: each step is a function from the
current set to the next one).  `loadFiles` reads the parameter files. -/
def applyMergeOpt (names : ReservedNames)
    (loadFiles : List String → Except Error (List (String × String))) (b : Bundle) :
    mergeBundleOpt → List (String × String) → Except Error (List (String × String))
  | .withFileParameters parametersFiles, cur =>
    match loadFiles parametersFiles with
    | .error e => .error e
    | .ok vals => overlayValues b vals cur
  | .withCommandLineParameters overrides, cur => overlayValues b overrides cur
  | .withOrchestratorParameters orchestrator kubeNamespace, cur =>
    .ok (overlayInjected b names.kubernetesNamespace kubeNamespace
          (overlayInjected b names.orchestrator orchestrator cur))
  | .withSendRegistryAuth sendRegistryAuth, cur =>
    .ok (overlayInjected b names.shareRegistryCreds
          (if sendRegistryAuth then "true" else "false") cur)

/-- The steps applied one after the other, stopping at the first failure. -/
def applyMergeOpts (names : ReservedNames)
    (loadFiles : List String → Except Error (List (String × String))) (b : Bundle) :
    List mergeBundleOpt → List (String × String) → Except Error (List (String × String))
  | [], cur => .ok cur
  | op :: ops, cur =>
    match applyMergeOpt names loadFiles b op cur with
    | .error e => .error e
    | .ok next => applyMergeOpts names loadFiles b ops next

/-- Modelled from the spec: `mergeBundleParameters`, which is declared in
another file of the package (section 4.3: the final parameter set is built by
applying the overlay of section 3 onto the record, bundle defaults first and then
the steps in the order given; section 3: the final set must give a value to
every required parameter). -/
def mergeBundleParameters (names : ReservedNames)
    (loadFiles : List String → Except Error (List (String × String)))
    (c : Claim) (ops : List mergeBundleOpt) : Except Error Claim :=
  match c.Bundle with
  | none => .error "claim without bundle"
  | some b =>
    match applyMergeOpts names loadFiles b ops (bundleDefaults b) with
    | .error e => .error e
    | .ok merged =>
      match b.Parameters.find? (fun p => p.Required && (merged.lookup p.Name).isNone) with
      | some p => .error ("missing required parameter: " ++ p.Name)
      | none => .ok { c with Parameters := merged }

/-! ## A concrete environment

A small instance of `Env` on which the functions above can be evaluated: the
installation store is a list of records with at most one record per name. -/

namespace Sample

/-- Reading a record by name. -/
def Read (s : List Claim) (name : String) : Except Error Claim :=
  match s.find? (fun c => c.Name == name) with
  | some c => .ok c
  | none => .error "not found"

/-- Writing a record: it replaces the record of the same name.  A failing
write leaves the store as it is. -/
def Store (fails : Bool) (s : List Claim) (c : Claim) : List Claim × Option Error :=
  if fails then (s, some "disk full")
  else (c :: s.filter (fun d => d.Name != c.Name), none)

/-- Modelled from the spec: `isInstallationFailed`, which is declared in
another file of the package (section 4.2 and the comment at lines 95-100 of
install.go: a record whose install action failed can be overridden, a failed
upgrade cannot). -/
def isInstallationFailed (c : Claim) : Bool :=
  c.ResultAction == Action.install && c.ResultStatus == Status.failure

/-- The reserved parameter names. -/
def names : ReservedNames :=
  { orchestrator := "com.docker.app.orchestrator"
    kubernetesNamespace := "com.docker.app.kubernetes-namespace"
    shareRegistryCreds := "com.docker.app.share-registry-creds" }

/-- The bundle every reference resolves to. -/
def bundle : Bundle :=
  { Name := "myapp"
    Parameters :=
      [ { Name := "port", Default := some "80", Required := false },
        { Name := "com.docker.app.orchestrator", Default := some "D", Required := false } ]
    Credentials := ["docker.context"] }

/-- The one parameter file there is. -/
def loadFiles (files : List String) : Except Error (List (String × String)) :=
  if files = [] then .ok []
  else if files = ["prod.yml"] then
    .ok [("port", "8080"), ("com.docker.app.orchestrator", "F")]
  else .error "no such file"

/-- What goes wrong in a run. -/
structure Scenario where
  bundleMissing : Bool
  credentialsMissing : Bool
  actionFails : Bool
  storeFails : Bool

/-- A run in which nothing goes wrong. -/
def allGood : Scenario :=
  { bundleMissing := false, credentialsMissing := false, actionFails := false,
    storeFails := false }

/-- The environment of a scenario. -/
def env (sc : Scenario) : Env (List Claim) Unit Unit :=
  { quote := fun n => "\"" ++ n ++ "\""
    SetDefaultTargetContext := fun ctx => if ctx = "" then "default" else ctx
    requiredBindMount := fun _ _ => .ok ()
    prepareStores := fun _ => .ok ()
    resolveBundle := fun _ _ _ => if sc.bundleMissing then .error "not found" else .ok bundle
    Validate := fun _ => none
    Read := Read
    isInstallationFailed := isInstallationFailed
    claimNew := fun n =>
      if n = "" then .error "invalid name"
      else .ok { Name := n, Bundle := none, Parameters := [], ResultAction := Action.unknown,
                 ResultStatus := Status.unknown }
    prepareDriver := fun _ => .ok ()
    mergeBundleParameters := mergeBundleParameters names loadFiles
    prepareCredentialSet := fun _ _ =>
      if sc.credentialsMissing then .ok [] else .ok [("docker.context", "default")]
    credentialsValidate := fun creds required =>
      match required.find? (fun k => (creds.lookup k).isNone) with
      | some k => some ("missing credential: " ++ k)
      | none => none
    Run := fun _ c _ =>
      if sc.actionFails then
        { claim := { c with ResultAction := Action.install, ResultStatus := Status.failure },
          err := some "exit status 1", errBuf := "boom" }
      else
        { claim := { c with ResultAction := Action.install, ResultStatus := Status.success },
          err := none, errBuf := "" }
    Store := Store sc.storeFails }

/-- Plain options: install the application of the current directory. -/
def opts : installOptions :=
  { parametersFiles := [], overrides := [], targetContext := "", credentialsets := [],
    sendRegistryAuth := false, insecureRegistries := [], pull := false,
    orchestrator := "swarm", kubeNamespace := "default", stackName := "" }

/-- The record of a finished installation of `myapp` with the given status. -/
def record (status : Status) : Claim :=
  { Name := "myapp", Bundle := some bundle, Parameters := [("port", "80")],
    ResultAction := Action.install, ResultStatus := status }

end Sample

/-- The value `runInstall` returns after the action and the store write
(lines 138-141). -/
def finalError (r : RunResult) (err2 : Option Error) : Option Error :=
  match r.err with
  | some _ => some (installFailedError r.errBuf)
  | none => err2

/-- The run of the sample environment in which the action fails. -/
def Sample.actionFailure : Sample.Scenario :=
  { bundleMissing := false, credentialsMissing := false, actionFails := true,
    storeFails := false }

/-- The run of the sample environment in which the store write fails. -/
def Sample.storeFailure : Sample.Scenario :=
  { bundleMissing := false, credentialsMissing := false, actionFails := false,
    storeFails := true }

/-- The run of the sample environment in which action and store write both fail. -/
def Sample.bothFail : Sample.Scenario :=
  { bundleMissing := false, credentialsMissing := false, actionFails := true,
    storeFails := true }

/-- The run of the sample environment in which no credential can be resolved. -/
def Sample.noCredentials : Sample.Scenario :=
  { bundleMissing := false, credentialsMissing := true, actionFails := false,
    storeFails := false }

/-- The record `myapp` as `claim.New` and the parameter merger build it. -/
def Sample.merged : Claim :=
  { Name := "myapp", Bundle := some Sample.bundle,
    Parameters := [("com.docker.app.orchestrator", "swarm"), ("port", "80")],
    ResultAction := Action.unknown, ResultStatus := Status.unknown }

/-- The record `myapp` as the action leaves it. -/
def Sample.installed (status : Status) : Claim :=
  { Sample.merged with ResultAction := Action.install, ResultStatus := status }

/-- The record `myapp` as `claim.New` returns it. -/
def Sample.fresh : Claim :=
  { Name := "myapp", Bundle := none, Parameters := [], ResultAction := Action.unknown,
    ResultStatus := Status.unknown }

/-- The outcome of a first install of `myapp` for which no credential can be resolved. -/
def Sample.noCredentialsOutcome : Outcome (List Claim) :=
  ⟨some "missing credential: docker.context",
   [Event.read "myapp" (.error "not found"), Event.claimNew "myapp"], []⟩

/-- What the caller of `runInstall` gets to see: the returned error and the
text written to standard error. -/
def Outcome.visible {σ : Type} (o : Outcome σ) : List String :=
  o.err.toList ++ o.trace.filterMap (fun ev =>
    match ev with
    | Event.warning text => some text
    | _ => none)

/-- An outcome carries an error when the error's message occurs in what the
caller gets to see. -/
def Outcome.carries {σ : Type} (o : Outcome σ) (e : Error) : Prop :=
  ∃ text ∈ o.visible, e.data <:+: text.data

/-- The outcome of installing `myapp` over its failed installation when no
credential can be resolved. -/
def Sample.overFailedOutcome : Outcome (List Claim) :=
  ⟨some "missing credential: docker.context",
   [Event.read "myapp" (.ok (Sample.record Status.failure)),
    Event.warning "WARNING: installing over previously failed installation \"myapp\"\n",
    Event.claimNew "myapp"],
   [Sample.record Status.failure]⟩

/-- The run of the sample environment in which the bundle cannot be resolved. -/
def Sample.noBundle : Sample.Scenario :=
  { bundleMissing := true, credentialsMissing := false, actionFails := false,
    storeFails := false }

/-- The options of `docker app install --name myapp`. -/
def Sample.namedOpts : installOptions :=
  { Sample.opts with stackName := "myapp" }

/-- The options of `docker app install --name prod`. -/
def Sample.prodOpts : installOptions :=
  { Sample.opts with stackName := "prod" }

/-- The options of `docker app install --parameters-file prod.yml
--set com.docker.app.orchestrator=O --set port=9090 --orchestrator swarm`. -/
def Sample.overrideOpts : installOptions :=
  { Sample.opts with
    parametersFiles := ["prod.yml"],
    overrides := [("com.docker.app.orchestrator", "O"), ("port", "9090")] }

/-- The record `myapp` as the merger builds it under `Sample.overrideOpts`. -/
def Sample.overridden : Claim :=
  { Sample.merged with
    Parameters := [("com.docker.app.orchestrator", "swarm"), ("port", "9090")] }

/-! ## Agreement of the two readings -/

section Agreement

variable {σ β δ : Type}

/-- Every run of `runInstall` leaves through one of the exit paths. -/
theorem runInstall_exit (env : Env σ β δ) (s : σ) (appname : String) (opts0 : installOptions) :
    ∃ step, Exit env s appname opts0 step (runInstall env s appname opts0) := by
  unfold runInstall
  simp only []
  split
  · exact ⟨_, Exit.bindMount _ ‹_›⟩
  split
  · exact ⟨_, Exit.stores _ _ ‹_› ‹_›⟩
  split
  · exact ⟨_, Exit.resolve _ _ ‹_› ‹_› ‹_›⟩
  split
  · exact ⟨_, Exit.validate _ _ _ ‹_› ‹_› ‹_› ‹_›⟩
  rename_i _ bind hb _ u hu _ bndl hr _ hv
  have hres : BundleResolved env appname (targetOpts env opts0) bind bndl := ⟨hb, hu, hr, hv⟩
  split
  · exact ⟨_, Exit.guard _ _ _ hres ‹_›⟩
  rename_i _ seen hg
  have hgp : GuardPassed env s appname (targetOpts env opts0) bind bndl seen := ⟨hres, hg⟩
  split
  · exact ⟨_, Exit.claim _ _ _ _ hgp ‹_›⟩
  rename_i _ c0 hc0
  split
  · exact ⟨_, Exit.driver _ _ _ _ _ hgp hc0 ‹_›⟩
  rename_i _ driverImpl hd
  split
  · exact ⟨_, Exit.merge _ _ _ _ _ _ hgp hc0 hd ‹_›⟩
  rename_i _ c2 hm
  split
  · exact ⟨_, Exit.credentialSet _ _ _ _ _ _ _ hgp hc0 hd hm ‹_›⟩
  rename_i _ creds hcs
  split
  · exact ⟨_, Exit.credentialValidate _ _ _ _ _ _ _ _ hgp hc0 hd hm hcs ‹_›⟩
  rename_i _ hcv
  have hcb : ConfigBuilt env s appname (targetOpts env opts0) bndl seen driverImpl c2 creds :=
    ⟨bind, c0, hgp, hc0, hd, hm, hcs, hcv⟩
  split
  · exact ⟨_, Exit.action _ _ _ _ _ _ hcb ‹_›⟩
  · exact ⟨_, Exit.persist _ _ _ _ _ hcb ‹_›⟩

/-- An exit path determines the outcome of `runInstall`. -/
theorem exit_runInstall (env : Env σ β δ) (s : σ) (appname : String) (opts0 : installOptions)
    (step : Step) (o : Outcome σ) (h : Exit env s appname opts0 step o) :
    runInstall env s appname opts0 = o := by
  cases h with
  | bindMount e h => simp [runInstall, h]
  | stores bind e h1 h => simp [runInstall, h1, h]
  | resolve bind e h1 h2 h => simp [runInstall, h1, h2, h]
  | validate bind bndl e h1 h2 h3 h => simp [runInstall, h1, h2, h3, h]
  | guard bind bndl e h1 h =>
    obtain ⟨a1, a2, a3, a4⟩ := h1
    simp [runInstall, a1, a2, a3, a4, h]
  | claim bind bndl seen e h1 h =>
    obtain ⟨⟨a1, a2, a3, a4⟩, a5⟩ := h1
    simp [runInstall, a1, a2, a3, a4, a5, h]
  | driver bind bndl seen c0 e h1 h2 h =>
    obtain ⟨⟨a1, a2, a3, a4⟩, a5⟩ := h1
    simp [runInstall, a1, a2, a3, a4, a5, h2, h]
  | merge bind bndl seen c0 driverImpl e h1 h2 h3 h =>
    obtain ⟨⟨a1, a2, a3, a4⟩, a5⟩ := h1
    simp [runInstall, a1, a2, a3, a4, a5, h2, h3, h]
  | credentialSet bind bndl seen c0 c2 driverImpl e h1 h2 h3 h4 h =>
    obtain ⟨⟨a1, a2, a3, a4⟩, a5⟩ := h1
    simp [runInstall, a1, a2, a3, a4, a5, h2, h3, h4, h]
  | credentialValidate bind bndl seen c0 c2 driverImpl creds e h1 h2 h3 h4 h5 h =>
    obtain ⟨⟨a1, a2, a3, a4⟩, a5⟩ := h1
    simp [runInstall, a1, a2, a3, a4, a5, h2, h3, h4, h5, h]
  | action bndl seen driverImpl c2 creds e h1 h =>
    obtain ⟨bind, c0, ⟨⟨a1, a2, a3, a4⟩, a5⟩, h2, h3, h4, h5, h6⟩ := h1
    simp [runInstall, fullLog, a1, a2, a3, a4, a5, h2, h3, h4, h5, h6, h]
  | persist bndl seen driverImpl c2 creds h1 h =>
    obtain ⟨bind, c0, ⟨⟨a1, a2, a3, a4⟩, a5⟩, h2, h3, h4, h5, h6⟩ := h1
    simp [runInstall, fullLog, a1, a2, a3, a4, a5, h2, h3, h4, h5, h6, h]

/-- When the guard lets the install through it has logged the lookup, and the
warning exactly when the lookup found a failed installation. -/
theorem installGuard_ok (env : Env σ β δ) (s : σ) (n : String) (seen : List Event)
    (h : installGuard env s n = .ok seen) :
    (∃ inst, env.Read s n = .ok inst ∧ env.isInstallationFailed inst = true ∧
      seen = [Event.read n (.ok inst), Event.warning (overrideWarning env.quote n)]) ∨
    (∃ e, env.Read s n = .error e ∧ seen = [Event.read n (.error e)]) := by
  unfold installGuard at h
  split at h
  · rename_i inst hr
    split at h
    · left
      refine ⟨inst, hr, ‹_›, ?_⟩
      cases h
      rfl
    · cases h
  · rename_i e hr
    right
    refine ⟨e, hr, ?_⟩
    cases h
    rfl

/-- The guard rejects exactly over a record that is not a failed installation. -/
theorem installGuard_error (env : Env σ β δ) (s : σ) (n : String) (e : Error)
    (h : installGuard env s n = .error e) :
    ∃ inst, env.Read s n = .ok inst ∧ env.isInstallationFailed inst = false ∧
      e = alreadyExistsError env.quote n := by
  unfold installGuard at h
  split at h
  · rename_i inst hr
    split at h
    · cases h
    · rename_i hf
      refine ⟨inst, hr, by simpa using hf, ?_⟩
      cases h
      rfl
  · cases h

/-- What the guard logs when it lets the install through: the lookup under the
installation name, and possibly the warning. -/
theorem installGuard_seen (env : Env σ β δ) (s : σ) (n : String) (seen : List Event)
    (h : installGuard env s n = .ok seen) (ev : Event) (hev : ev ∈ seen) :
    ev = Event.read n (env.Read s n) ∨ ev = Event.warning (overrideWarning env.quote n) := by
  rcases installGuard_ok env s n seen h with ⟨inst, hr, _, rfl⟩ | ⟨e, hr, rfl⟩
  · simp only [List.mem_cons, List.mem_singleton, List.not_mem_nil, or_false] at hev
    rcases hev with rfl | rfl
    · left; rw [hr]
    · right; rfl
  · simp only [List.mem_singleton] at hev
    left; rw [hev, hr]

/-- A lookup the guard logged as found, while letting the install through,
found a failed installation. -/
theorem installGuard_seen_found (env : Env σ β δ) (s : σ) (n : String) (seen : List Event)
    (h : installGuard env s n = .ok seen) (x : String) (inst : Claim)
    (hev : Event.read x (.ok inst) ∈ seen) :
    x = n ∧ env.Read s n = .ok inst ∧ env.isInstallationFailed inst = true := by
  rcases installGuard_ok env s n seen h with ⟨inst2, hr, hf, rfl⟩ | ⟨e, hr, rfl⟩
  · simp only [List.mem_cons, List.mem_singleton, List.not_mem_nil, or_false, Event.read.injEq,
      Except.ok.injEq, reduceCtorEq] at hev
    obtain ⟨rfl, rfl⟩ := hev
    exact ⟨rfl, hr, hf⟩
  · simp at hev

/-- The guard logs neither an action nor a store write. -/
theorem installGuard_seen_quiet (env : Env σ β δ) (s : σ) (n : String) (seen : List Event)
    (h : installGuard env s n = .ok seen) :
    (∀ c r, Event.run c r ∉ seen) ∧ (∀ c r, Event.store c r ∉ seen) ∧
      (∀ x, Event.claimNew x ∉ seen) := by
  refine ⟨fun c r hev => ?_, fun c r hev => ?_, fun x hev => ?_⟩ <;>
    rcases installGuard_seen env s n seen h _ hev with h1 | h1 <;> cases h1

/-- A run whose configuration was built goes through the action and the store write. -/
theorem configBuilt_outcome (env : Env σ β δ) (s : σ) (appname : String)
    (opts0 : installOptions) (bndl : Bundle) (seen : List Event) (driverImpl : δ) (c2 : Claim)
    (creds : CredentialSet)
    (h : ConfigBuilt env s appname (targetOpts env opts0) bndl seen driverImpl c2 creds) :
    runInstall env s appname opts0 =
      ⟨finalError (env.Run driverImpl c2 creds)
          (env.Store s (env.Run driverImpl c2 creds).claim).2,
       fullLog env s (installationNameOf (targetOpts env opts0) bndl) seen c2
          (env.Run driverImpl c2 creds),
       (env.Store s (env.Run driverImpl c2 creds).claim).1⟩ := by
  cases hr : (env.Run driverImpl c2 creds).err with
  | none =>
    rw [exit_runInstall env s appname opts0 _ _ (Exit.persist bndl seen driverImpl c2 creds h hr)]
    simp [finalError, hr]
  | some e =>
    rw [exit_runInstall env s appname opts0 _ _ (Exit.action bndl seen driverImpl c2 creds e h hr)]
    simp [finalError, hr]

/-- A logged action means the configuration was built, and fixes the whole outcome. -/
theorem run_logged (env : Env σ β δ) (s : σ) (appname : String) (opts0 : installOptions)
    (c : Claim) (r : RunResult)
    (hrun : Event.run c r ∈ (runInstall env s appname opts0).trace) :
    ∃ (bndl : Bundle) (seen : List Event) (driverImpl : δ) (creds : CredentialSet),
      ConfigBuilt env s appname (targetOpts env opts0) bndl seen driverImpl c creds ∧
      r = env.Run driverImpl c creds ∧
      runInstall env s appname opts0 =
        ⟨finalError r (env.Store s r.claim).2,
         fullLog env s (installationNameOf (targetOpts env opts0) bndl) seen c r,
         (env.Store s r.claim).1⟩ := by
  obtain ⟨step, hx⟩ := runInstall_exit env s appname opts0
  have quiet : ∀ (bind : β) (bndl : Bundle) (seen : List Event) (x : String),
      GuardPassed env s appname (targetOpts env opts0) bind bndl seen →
      Event.run c r ∈ seen ++ [Event.claimNew x] → False := by
    intro bind bndl seen x hg hm
    rcases List.mem_append.1 hm with h1 | h1
    · exact (installGuard_seen_quiet env s _ seen hg.2).1 c r h1
    · simp at h1
  have done : ∀ (bndl : Bundle) (seen : List Event) (driverImpl : δ) (c2 : Claim)
      (creds : CredentialSet),
      ConfigBuilt env s appname (targetOpts env opts0) bndl seen driverImpl c2 creds →
      Event.run c r ∈ fullLog env s (installationNameOf (targetOpts env opts0) bndl) seen c2
        (env.Run driverImpl c2 creds) →
      c = c2 ∧ r = env.Run driverImpl c2 creds := by
    intro bndl seen driverImpl c2 creds hcb hm
    obtain ⟨bind, c0, hg, _⟩ := hcb
    rcases List.mem_append.1 hm with h1 | h1
    · exact ((installGuard_seen_quiet env s _ seen hg.2).1 c r h1).elim
    · simpa using h1
  revert hrun
  generalize ho : runInstall env s appname opts0 = o at hx
  intro hrun
  cases hx with
  | bindMount e h => simp at hrun
  | stores bind e h1 h => simp at hrun
  | resolve bind e h1 h2 h => simp at hrun
  | validate bind bndl e h1 h2 h3 h => simp at hrun
  | guard bind bndl e h1 h => simp at hrun
  | claim bind bndl seen e h1 h => exact (quiet bind bndl seen _ h1 hrun).elim
  | driver bind bndl seen c0 e h1 h2 h => exact (quiet bind bndl seen _ h1 hrun).elim
  | merge bind bndl seen c0 driverImpl e h1 h2 h3 h => exact (quiet bind bndl seen _ h1 hrun).elim
  | credentialSet bind bndl seen c0 c2 driverImpl e h1 h2 h3 h4 h =>
    exact (quiet bind bndl seen _ h1 hrun).elim
  | credentialValidate bind bndl seen c0 c2 driverImpl creds e h1 h2 h3 h4 h5 h =>
    exact (quiet bind bndl seen _ h1 hrun).elim
  | action bndl seen driverImpl c2 creds e h1 h =>
    obtain ⟨rfl, rfl⟩ := done bndl seen driverImpl c2 creds h1 hrun
    exact ⟨bndl, seen, driverImpl, creds, h1, rfl, by simp [finalError, h]⟩
  | persist bndl seen driverImpl c2 creds h1 h =>
    obtain ⟨rfl, rfl⟩ := done bndl seen driverImpl c2 creds h1 hrun
    exact ⟨bndl, seen, driverImpl, creds, h1, rfl, by simp [finalError, h]⟩

/-- The log of a run: nothing before the guard; the lookup alone when the guard
rejects; otherwise what the guard logged, then the claim construction, then
possibly the action and the store write. -/
theorem runInstall_trace (env : Env σ β δ) (s : σ) (appname : String) (opts0 : installOptions) :
    (runInstall env s appname opts0).trace = [] ∨
    (∃ (bind : β) (bndl : Bundle) (e : Error),
      BundleResolved env appname (targetOpts env opts0) bind bndl ∧
      installGuard env s (installationNameOf (targetOpts env opts0) bndl) = .error e ∧
      runInstall env s appname opts0 =
        ⟨some e, [Event.read (installationNameOf (targetOpts env opts0) bndl)
                    (env.Read s (installationNameOf (targetOpts env opts0) bndl))], s⟩) ∨
    (∃ (bind : β) (bndl : Bundle) (seen rest : List Event),
      GuardPassed env s appname (targetOpts env opts0) bind bndl seen ∧
      (runInstall env s appname opts0).trace =
        seen ++ Event.claimNew (installationNameOf (targetOpts env opts0) bndl) :: rest ∧
      (rest = [] ∧ (runInstall env s appname opts0).store = s ∨
        ∃ c r, rest = [Event.run c r, Event.store r.claim (env.Store s r.claim).2])) := by
  obtain ⟨step, hx⟩ := runInstall_exit env s appname opts0
  generalize runInstall env s appname opts0 = o at hx
  cases hx with
  | bindMount e h => exact Or.inl rfl
  | stores bind e h1 h => exact Or.inl rfl
  | resolve bind e h1 h2 h => exact Or.inl rfl
  | validate bind bndl e h1 h2 h3 h => exact Or.inl rfl
  | guard bind bndl e h1 h => exact Or.inr (Or.inl ⟨bind, bndl, e, h1, h, rfl⟩)
  | claim bind bndl seen e h1 h =>
    exact Or.inr (Or.inr ⟨bind, bndl, seen, [], h1, rfl, Or.inl ⟨rfl, rfl⟩⟩)
  | driver bind bndl seen c0 e h1 h2 h =>
    exact Or.inr (Or.inr ⟨bind, bndl, seen, [], h1, rfl, Or.inl ⟨rfl, rfl⟩⟩)
  | merge bind bndl seen c0 driverImpl e h1 h2 h3 h =>
    exact Or.inr (Or.inr ⟨bind, bndl, seen, [], h1, rfl, Or.inl ⟨rfl, rfl⟩⟩)
  | credentialSet bind bndl seen c0 c2 driverImpl e h1 h2 h3 h4 h =>
    exact Or.inr (Or.inr ⟨bind, bndl, seen, [], h1, rfl, Or.inl ⟨rfl, rfl⟩⟩)
  | credentialValidate bind bndl seen c0 c2 driverImpl creds e h1 h2 h3 h4 h5 h =>
    exact Or.inr (Or.inr ⟨bind, bndl, seen, [], h1, rfl, Or.inl ⟨rfl, rfl⟩⟩)
  | action bndl seen driverImpl c2 creds e h1 h =>
    obtain ⟨bind, c0, hg, _⟩ := h1
    exact Or.inr (Or.inr ⟨bind, bndl, seen, _, hg, rfl, Or.inr ⟨_, _, rfl⟩⟩)
  | persist bndl seen driverImpl c2 creds h1 h =>
    obtain ⟨bind, c0, hg, _⟩ := h1
    exact Or.inr (Or.inr ⟨bind, bndl, seen, _, hg, rfl, Or.inr ⟨_, _, rfl⟩⟩)

/-- A lookup that is logged as having found a failed installation is followed
by the warning and the claim construction, all three under the same name. -/
theorem read_failed_logged (env : Env σ β δ) (s : σ) (appname : String)
    (opts0 : installOptions) (n : String) (inst : Claim)
    (hread : Event.read n (.ok inst) ∈ (runInstall env s appname opts0).trace)
    (hfailed : env.isInstallationFailed inst = true) :
    ∃ rest : List Event,
      (runInstall env s appname opts0).trace =
        [Event.read n (.ok inst), Event.warning (overrideWarning env.quote n)] ++
          Event.claimNew n :: rest := by
  rcases runInstall_trace env s appname opts0 with h0 | ⟨bind, bndl, e, _, hg, ho⟩ |
    ⟨bind, bndl, seen, rest, hg, ht, hrest⟩
  · rw [h0] at hread
    cases hread
  · obtain ⟨inst2, hr, hf, _⟩ := installGuard_error env s _ e hg
    rw [ho, hr] at hread
    simp only [List.mem_singleton, Event.read.injEq, Except.ok.injEq] at hread
    obtain ⟨_, rfl⟩ := hread
    rw [hf] at hfailed
    cases hfailed
  · rw [ht] at hread
    have hseen : Event.read n (.ok inst) ∈ seen := by
      rcases List.mem_append.1 hread with h1 | h1
      · exact h1
      · rcases hrest with ⟨rfl, _⟩ | ⟨c, r, rfl⟩ <;> simp at h1
    obtain ⟨rfl, hr, _⟩ := installGuard_seen_found env s _ seen hg.2 n inst hseen
    rcases installGuard_ok env s _ seen hg.2 with ⟨inst2, hr2, _, hs⟩ | ⟨e, hr2, _⟩
    · rw [hr] at hr2
      cases hr2
      exact ⟨rest, by rw [ht, hs]⟩
    · rw [hr] at hr2
      cases hr2

/-- A lookup that is logged as having found a record that is not a failed
installation is all there is in the log: the guard has rejected. -/
theorem read_rejected_logged (env : Env σ β δ) (s : σ) (appname : String)
    (opts0 : installOptions) (n : String) (inst : Claim)
    (hread : Event.read n (.ok inst) ∈ (runInstall env s appname opts0).trace)
    (hnot : env.isInstallationFailed inst = false) :
    runInstall env s appname opts0 =
      ⟨some (alreadyExistsError env.quote n), [Event.read n (.ok inst)], s⟩ := by
  rcases runInstall_trace env s appname opts0 with h0 | ⟨bind, bndl, e, _, hg, ho⟩ |
    ⟨bind, bndl, seen, rest, hg, ht, hrest⟩
  · rw [h0] at hread
    cases hread
  · obtain ⟨inst2, hr, hf, rfl⟩ := installGuard_error env s _ e hg
    rw [ho, hr] at hread
    simp only [List.mem_singleton, Event.read.injEq, Except.ok.injEq] at hread
    obtain ⟨rfl, rfl⟩ := hread
    rw [ho, hr]
  · rw [ht] at hread
    have hseen : Event.read n (.ok inst) ∈ seen := by
      rcases List.mem_append.1 hread with h1 | h1
      · exact h1
      · rcases hrest with ⟨rfl, _⟩ | ⟨c, r, rfl⟩ <;> simp at h1
    have := (installGuard_seen_found env s _ seen hg.2 n inst hseen).2.2
    rw [hnot] at this
    cases this

/-- Every lookup in the log is the lookup of the guard, under the installation name. -/
theorem read_logged_name (env : Env σ β δ) (s : σ) (appname : String)
    (opts0 : installOptions) (x : String) (res : Except Error Claim)
    (hread : Event.read x res ∈ (runInstall env s appname opts0).trace) :
    ∃ (bind : β) (bndl : Bundle),
      BundleResolved env appname (targetOpts env opts0) bind bndl ∧
      x = installationNameOf (targetOpts env opts0) bndl ∧ res = env.Read s x := by
  rcases runInstall_trace env s appname opts0 with h0 | ⟨bind, bndl, e, hb, hg, ho⟩ |
    ⟨bind, bndl, seen, rest, hg, ht, hrest⟩
  · rw [h0] at hread
    cases hread
  · rw [ho] at hread
    simp only [List.mem_singleton, Event.read.injEq] at hread
    obtain ⟨rfl, rfl⟩ := hread
    exact ⟨bind, bndl, hb, rfl, rfl⟩
  · rw [ht] at hread
    have hseen : Event.read x res ∈ seen := by
      rcases List.mem_append.1 hread with h1 | h1
      · exact h1
      · rcases hrest with ⟨rfl, _⟩ | ⟨c, r, rfl⟩ <;> simp at h1
    rcases installGuard_seen env s _ seen hg.2 _ hseen with h1 | h1
    · simp only [Event.read.injEq] at h1
      obtain ⟨rfl, rfl⟩ := h1
      exact ⟨bind, bndl, hg.1, rfl, rfl⟩
    · cases h1

/-- Removing the bindings of another key does not change what a key is bound to. -/
theorem lookup_filter_ne (k k2 : String) (cur : List (String × String)) (h : k ≠ k2) :
    (cur.filter (fun p => p.1 != k2)).lookup k = cur.lookup k := by
  induction cur with
  | nil => rfl
  | cons p cur ih =>
    obtain ⟨a, v⟩ := p
    by_cases ha : a = k2
    · subst ha
      have hk : (k == a) = false := by simpa using h
      simp [List.filter_cons, List.lookup_cons, hk, ih]
    · have : (a != k2) = true := by simpa using ha
      simp only [List.filter_cons, this, if_true, List.lookup_cons, ih]

/-- A written key is bound to the written value. -/
theorem lookup_setParam_self (k v : String) (cur : List (String × String)) :
    (setParam k v cur).lookup k = some v := by
  simp [setParam]

/-- Writing a key leaves the other keys as they were. -/
theorem lookup_setParam_ne (k k2 v : String) (cur : List (String × String)) (h : k ≠ k2) :
    (setParam k2 v cur).lookup k = cur.lookup k := by
  have hk : (k == k2) = false := by simpa using h
  simp [setParam, List.lookup_cons, hk, lookup_filter_ne k k2 cur h]

/-- After a list of values has been written, a key is bound to the last value
the list has for it, and to its earlier value when the list has none. -/
theorem lookup_foldl_setParam (k : String) (vals cur : List (String × String)) :
    (vals.foldl (fun acc p => setParam p.1 p.2 acc) cur).lookup k =
      (match supplied vals k with
       | some v => some v
       | none => cur.lookup k) := by
  induction vals generalizing cur with
  | nil => simp [supplied]
  | cons p vals ih =>
    obtain ⟨a, v⟩ := p
    rw [List.foldl_cons, ih]
    simp only [supplied, List.reverse_cons, List.lookup_append]
    cases hv : List.lookup k vals.reverse with
    | some w => simp
    | none =>
      by_cases ha : k = a
      · subst ha
        simp [lookup_setParam_self]
      · have hk : (k == a) = false := by simpa using ha
        simp [lookup_setParam_ne k a v cur ha, List.lookup_cons, hk]
/-- A successful step of user-supplied values has written all of them. -/
theorem overlayValues_ok (b : Bundle) (vals cur next : List (String × String))
    (h : overlayValues b vals cur = .ok next) :
    next = vals.foldl (fun acc p => setParam p.1 p.2 acc) cur := by
  unfold overlayValues at h
  split at h
  · cases h
  · cases h
    rfl

/-- An injected value leaves the other keys as they were. -/
theorem lookup_overlayInjected_ne (b : Bundle) (k k2 v : String) (cur : List (String × String))
    (h : k ≠ k2) : (overlayInjected b k2 v cur).lookup k = cur.lookup k := by
  unfold overlayInjected
  split
  · exact lookup_setParam_ne k k2 v cur h
  · rfl

/-- An injected value is what a declared key is bound to afterwards. -/
theorem lookup_overlayInjected_self (b : Bundle) (k v : String) (cur : List (String × String))
    (h : k ∈ declaredNames b) : (overlayInjected b k v cur).lookup k = some v := by
  unfold overlayInjected
  rw [if_pos (by simpa using h)]
  exact lookup_setParam_self k v cur

/-- The parameter set the merger builds for the options of `runInstall`: the
bundle defaults, then the file values, then the command-line overrides, then the
two orchestrator values, then the registry flag. -/
theorem applyMergeOpts_install (names : ReservedNames)
    (loadFiles : List String → Except Error (List (String × String))) (b : Bundle)
    (opts : installOptions) (merged : List (String × String))
    (h : applyMergeOpts names loadFiles b (installMergeOpts opts) (bundleDefaults b) =
      .ok merged) :
    ∃ vals, loadFiles opts.parametersFiles = .ok vals ∧
      merged =
        overlayInjected b names.shareRegistryCreds
          (if opts.sendRegistryAuth then "true" else "false")
          (overlayInjected b names.kubernetesNamespace opts.kubeNamespace
            (overlayInjected b names.orchestrator opts.orchestrator
              (opts.overrides.foldl (fun acc p => setParam p.1 p.2 acc)
                (vals.foldl (fun acc p => setParam p.1 p.2 acc) (bundleDefaults b))))) := by
  simp only [installMergeOpts, applyMergeOpts, applyMergeOpt] at h
  cases hl : loadFiles opts.parametersFiles with
  | error e => simp [hl] at h
  | ok vals =>
    simp only [hl] at h
    cases h1 : overlayValues b vals (bundleDefaults b) with
    | error e => simp [h1] at h
    | ok s1 =>
      simp only [h1] at h
      cases h2 : overlayValues b opts.overrides s1 with
      | error e => simp [h2] at h
      | ok s2 =>
        simp only [h2] at h
        cases h
        rw [overlayValues_ok b _ _ _ h2, overlayValues_ok b _ _ _ h1]
        exact ⟨vals, rfl, rfl⟩

/-- The merger model changes the parameters of the claim and nothing else. -/
theorem mergeBundleParameters_ok (names : ReservedNames)
    (loadFiles : List String → Except Error (List (String × String)))
    (c : Claim) (ops : List mergeBundleOpt) (c2 : Claim)
    (h : mergeBundleParameters names loadFiles c ops = .ok c2) :
    ∃ (b : Bundle) (merged : List (String × String)),
      c.Bundle = some b ∧
      applyMergeOpts names loadFiles b ops (bundleDefaults b) = .ok merged ∧
      c2 = { c with Parameters := merged } := by
  unfold mergeBundleParameters at h
  split at h
  · cases h
  · rename_i b hb
    split at h
    · cases h
    · rename_i merged hm
      split at h
      · cases h
      · cases h
        exact ⟨b, merged, hb, hm, rfl⟩

/-- A run that logs no action returns an error and leaves the store as it was. -/
theorem no_run_store_unchanged (env : Env σ β δ) (s : σ) (appname : String)
    (opts0 : installOptions)
    (hno : ∀ c r, Event.run c r ∉ (runInstall env s appname opts0).trace) :
    (runInstall env s appname opts0).err ≠ none ∧ (runInstall env s appname opts0).store = s := by
  obtain ⟨step, hx⟩ := runInstall_exit env s appname opts0
  revert hno
  generalize runInstall env s appname opts0 = o at hx
  intro hno
  cases hx with
  | bindMount e h => simp
  | stores bind e h1 h => simp
  | resolve bind e h1 h2 h => simp
  | validate bind bndl e h1 h2 h3 h => simp
  | guard bind bndl e h1 h => simp
  | claim bind bndl seen e h1 h => simp
  | driver bind bndl seen c0 e h1 h2 h => simp
  | merge bind bndl seen c0 driverImpl e h1 h2 h3 h => simp
  | credentialSet bind bndl seen c0 c2 driverImpl e h1 h2 h3 h4 h => simp
  | credentialValidate bind bndl seen c0 c2 driverImpl creds e h1 h2 h3 h4 h5 h => simp
  | action bndl seen driverImpl c2 creds e h1 h =>
    exact (hno c2 (env.Run driverImpl c2 creds) (by simp [fullLog])).elim
  | persist bndl seen driverImpl c2 creds h1 h =>
    exact (hno c2 (env.Run driverImpl c2 creds) (by simp [fullLog])).elim

end Agreement

/-! ## The contract of `runInstall` -/

section Contract

variable {σ β δ : Type}

/-- C1. In every run in which `installationStore.Read` returns an existing
record that is not a failed installation, `runInstall` returns the error
`Installation "<name>" already exists, use 'docker app upgrade' instead` (the
name rendered by `%q`), the action is not run, `installationStore.Store` is not
called, and the store is unchanged. -/
theorem install_over_existing_rejected (env : Env σ β δ) (s : σ) (appname : String)
    (opts0 : installOptions) (n : String) (inst : Claim)
    (hread : Event.read n (.ok inst) ∈ (runInstall env s appname opts0).trace)
    (hnot : env.isInstallationFailed inst = false) :
    (runInstall env s appname opts0).err =
        some ("Installation " ++ env.quote n ++
          " already exists, use 'docker app upgrade' instead") ∧
      (∀ c r, Event.run c r ∉ (runInstall env s appname opts0).trace) ∧
      (∀ c r, Event.store c r ∉ (runInstall env s appname opts0).trace) ∧
      (runInstall env s appname opts0).store = s := by
  rw [read_rejected_logged env s appname opts0 n inst hread hnot]
  simp [alreadyExistsError]

/-- Witness of C1: re-installing `myapp` over its succeeded installation. -/
theorem install_over_existing_rejected_witness :
    Event.read "myapp" (.ok (Sample.record Status.success)) ∈
        (runInstall (Sample.env Sample.allGood) [Sample.record Status.success] ""
          Sample.opts).trace ∧
      Sample.isInstallationFailed (Sample.record Status.success) = false ∧
      (runInstall (Sample.env Sample.allGood) [Sample.record Status.success] ""
          Sample.opts).err =
        some "Installation \"myapp\" already exists, use 'docker app upgrade' instead" ∧
      (runInstall (Sample.env Sample.allGood) [Sample.record Status.success] ""
          Sample.opts).store = [Sample.record Status.success] :=
  have h := install_over_existing_rejected (Sample.env Sample.allGood)
    [Sample.record Status.success] "" Sample.opts "myapp" (Sample.record Status.success)
    (List.Mem.head _) rfl
  ⟨List.Mem.head _, rfl, h.1, h.2.2.2⟩

/-- C2. In every run that reaches the action step, `installationStore.Store` is
called exactly once, right after `inst.Run` has returned and with the record
as the action left it, whether the action succeeded or failed. -/
theorem store_once_after_action (env : Env σ β δ) (s : σ) (appname : String)
    (opts0 : installOptions) (c : Claim) (r : RunResult)
    (hrun : Event.run c r ∈ (runInstall env s appname opts0).trace) :
    ∃ before : List Event,
      (runInstall env s appname opts0).trace =
          before ++ [Event.run c r, Event.store r.claim (env.Store s r.claim).2] ∧
        (∀ c1 r1, Event.store c1 r1 ∉ before) ∧
        (∀ c1 r1, Event.run c1 r1 ∉ before) ∧
        (runInstall env s appname opts0).store = (env.Store s r.claim).1 := by
  obtain ⟨bndl, seen, driverImpl, creds, hcb, _, ho⟩ := run_logged env s appname opts0 c r hrun
  obtain ⟨bind, c0, hg, _⟩ := hcb
  have hq := installGuard_seen_quiet env s _ seen hg.2
  rw [ho]
  refine ⟨seen ++ [Event.claimNew (installationNameOf (targetOpts env opts0) bndl)],
    by simp [fullLog], ?_, ?_, rfl⟩
  · intro c1 r1 h1
    rcases List.mem_append.1 h1 with h2 | h2
    · exact hq.2.1 c1 r1 h2
    · simp at h2
  · intro c1 r1 h1
    rcases List.mem_append.1 h1 with h2 | h2
    · exact hq.1 c1 r1 h2
    · simp at h2

/-- Witness of C2: a first install of `myapp` whose action fails. -/
theorem store_once_after_action_witness :
    Event.run Sample.merged ⟨Sample.installed Status.failure, some "exit status 1", "boom"⟩ ∈
        (runInstall (Sample.env Sample.actionFailure) [] "" Sample.opts).trace ∧
      ∃ before : List Event,
        (runInstall (Sample.env Sample.actionFailure) [] "" Sample.opts).trace =
          before ++ [Event.run Sample.merged
                       ⟨Sample.installed Status.failure, some "exit status 1", "boom"⟩,
                     Event.store (Sample.installed Status.failure) none] ∧
        (runInstall (Sample.env Sample.actionFailure) [] "" Sample.opts).store =
          [Sample.installed Status.failure] :=
  have hrun : Event.run Sample.merged
      ⟨Sample.installed Status.failure, some "exit status 1", "boom"⟩ ∈
      (runInstall (Sample.env Sample.actionFailure) [] "" Sample.opts).trace :=
    List.Mem.tail _ (List.Mem.tail _ (List.Mem.head _))
  have h := store_once_after_action (Sample.env Sample.actionFailure) [] "" Sample.opts
    Sample.merged ⟨Sample.installed Status.failure, some "exit status 1", "boom"⟩ hrun
  ⟨hrun, h.elim fun before hb => ⟨before, hb.1, hb.2.2.2⟩⟩

/-- C3. A run that returns at any step before the action (bind mount, stores,
bundle resolution, bundle validation, the guard, claim construction, driver
preparation, parameter merging, credential preparation or credential
validation) returns that step's error; the action is not run,
`installationStore.Store` is not called, and the installation store is as it was
before the call. -/
theorem failure_before_action_no_effect (env : Env σ β δ) (s : σ) (appname : String)
    (opts0 : installOptions) (step : Step) (o : Outcome σ)
    (hexit : Exit env s appname opts0 step o) (hbefore : step.beforeAction = true) :
    runInstall env s appname opts0 = o ∧
      o.err ≠ none ∧
      (∀ c r, Event.run c r ∉ o.trace) ∧
      (∀ c r, Event.store c r ∉ o.trace) ∧
      o.store = s := by
  refine ⟨exit_runInstall env s appname opts0 step o hexit, ?_⟩
  have quiet : ∀ (bind : β) (bndl : Bundle) (seen : List Event) (x : String),
      GuardPassed env s appname (targetOpts env opts0) bind bndl seen →
      (∀ c r, Event.run c r ∉ seen ++ [Event.claimNew x]) ∧
      (∀ c r, Event.store c r ∉ seen ++ [Event.claimNew x]) := by
    intro bind bndl seen x hg
    have hq := installGuard_seen_quiet env s _ seen hg.2
    refine ⟨fun c r hm => ?_, fun c r hm => ?_⟩
    · rcases List.mem_append.1 hm with h1 | h1
      · exact hq.1 c r h1
      · simp at h1
    · rcases List.mem_append.1 hm with h1 | h1
      · exact hq.2.1 c r h1
      · simp at h1
  cases hexit with
  | bindMount e h => simp
  | stores bind e h1 h => simp
  | resolve bind e h1 h2 h => simp
  | validate bind bndl e h1 h2 h3 h => simp
  | guard bind bndl e h1 h => simp
  | claim bind bndl seen e h1 h =>
    exact ⟨by simp, (quiet bind bndl seen _ h1).1, (quiet bind bndl seen _ h1).2, rfl⟩
  | driver bind bndl seen c0 e h1 h2 h =>
    exact ⟨by simp, (quiet bind bndl seen _ h1).1, (quiet bind bndl seen _ h1).2, rfl⟩
  | merge bind bndl seen c0 driverImpl e h1 h2 h3 h =>
    exact ⟨by simp, (quiet bind bndl seen _ h1).1, (quiet bind bndl seen _ h1).2, rfl⟩
  | credentialSet bind bndl seen c0 c2 driverImpl e h1 h2 h3 h4 h =>
    exact ⟨by simp, (quiet bind bndl seen _ h1).1, (quiet bind bndl seen _ h1).2, rfl⟩
  | credentialValidate bind bndl seen c0 c2 driverImpl creds e h1 h2 h3 h4 h5 h =>
    exact ⟨by simp, (quiet bind bndl seen _ h1).1, (quiet bind bndl seen _ h1).2, rfl⟩
  | action bndl seen driverImpl c2 creds e h1 h => simp [Step.beforeAction] at hbefore
  | persist bndl seen driverImpl c2 creds h1 h => simp [Step.beforeAction] at hbefore

/-- Witness of C3: a first install of `myapp` that stops at credential validation. -/
theorem failure_before_action_no_effect_witness :
    Exit (Sample.env Sample.noCredentials) [] "" Sample.opts Step.credentialValidate
        Sample.noCredentialsOutcome ∧
      Step.credentialValidate.beforeAction = true ∧
      runInstall (Sample.env Sample.noCredentials) [] "" Sample.opts =
        Sample.noCredentialsOutcome ∧
      Sample.noCredentialsOutcome.store = [] :=
  have hexit : Exit (Sample.env Sample.noCredentials) [] "" Sample.opts Step.credentialValidate
      Sample.noCredentialsOutcome :=
    Exit.credentialValidate () Sample.bundle [Event.read "myapp" (.error "not found")]
      Sample.fresh Sample.merged () [] "missing credential: docker.context"
      ⟨⟨rfl, rfl, rfl, rfl⟩, rfl⟩ rfl rfl rfl rfl rfl
  have h := failure_before_action_no_effect (Sample.env Sample.noCredentials) [] ""
    Sample.opts Step.credentialValidate Sample.noCredentialsOutcome hexit rfl
  ⟨hexit, rfl, h.1, h.2.2.2.2⟩

/-- C4. In every run in which the action succeeds, `runInstall` returns exactly
what `installationStore.Store` returned; and a run that reached the action
returns no error only when both the action and the store write succeeded. -/
theorem action_success_returns_store_result (env : Env σ β δ) (s : σ) (appname : String)
    (opts0 : installOptions) (c : Claim) (r : RunResult)
    (hrun : Event.run c r ∈ (runInstall env s appname opts0).trace) :
    (r.err = none →
        (runInstall env s appname opts0).err = (env.Store s r.claim).2 ∧
        Event.store r.claim (runInstall env s appname opts0).err ∈
          (runInstall env s appname opts0).trace) ∧
      ((runInstall env s appname opts0).err = none ↔
        r.err = none ∧ (env.Store s r.claim).2 = none) := by
  obtain ⟨bndl, seen, driverImpl, creds, _, _, ho⟩ := run_logged env s appname opts0 c r hrun
  rw [ho]
  constructor
  · intro hok
    simp [finalError, hok, fullLog]
  · cases hr : r.err <;> simp [finalError, hr]

/-- Witness of C4: a first install of `myapp` whose action succeeds and whose
store write fails. -/
theorem action_success_returns_store_result_witness :
    Event.run Sample.merged ⟨Sample.installed Status.success, none, ""⟩ ∈
        (runInstall (Sample.env Sample.storeFailure) [] "" Sample.opts).trace ∧
      (runInstall (Sample.env Sample.storeFailure) [] "" Sample.opts).err = some "disk full" ∧
      (Sample.Store true [] (Sample.installed Status.success)).2 = some "disk full" :=
  have hrun : Event.run Sample.merged ⟨Sample.installed Status.success, none, ""⟩ ∈
      (runInstall (Sample.env Sample.storeFailure) [] "" Sample.opts).trace :=
    List.Mem.tail _ (List.Mem.tail _ (List.Mem.head _))
  have h := action_success_returns_store_result (Sample.env Sample.storeFailure) [] ""
    Sample.opts Sample.merged ⟨Sample.installed Status.success, none, ""⟩ hrun
  ⟨hrun, (h.1 rfl).1, rfl⟩

/-- C5. In every run in which the action fails, `runInstall` fails with the
error `install failed: ` followed by the contents of `errBuf`, whatever
`installationStore.Store` returned. -/
theorem action_failure_reports_errBuf (env : Env σ β δ) (s : σ) (appname : String)
    (opts0 : installOptions) (c : Claim) (r : RunResult) (e : Error)
    (hrun : Event.run c r ∈ (runInstall env s appname opts0).trace)
    (hfail : r.err = some e) :
    (runInstall env s appname opts0).err = some ("install failed: " ++ r.errBuf) ∧
      Event.store r.claim (env.Store s r.claim).2 ∈ (runInstall env s appname opts0).trace := by
  obtain ⟨bndl, seen, driverImpl, creds, _, _, ho⟩ := run_logged env s appname opts0 c r hrun
  rw [ho]
  simp [finalError, hfail, fullLog, installFailedError]

/-- Witness of C5: a first install of `myapp` whose action and store write both fail. -/
theorem action_failure_reports_errBuf_witness :
    Event.run Sample.merged ⟨Sample.installed Status.failure, some "exit status 1", "boom"⟩ ∈
        (runInstall (Sample.env Sample.bothFail) [] "" Sample.opts).trace ∧
      (runInstall (Sample.env Sample.bothFail) [] "" Sample.opts).err =
        some "install failed: boom" ∧
      Event.store (Sample.installed Status.failure) (some "disk full") ∈
        (runInstall (Sample.env Sample.bothFail) [] "" Sample.opts).trace :=
  have hrun : Event.run Sample.merged
      ⟨Sample.installed Status.failure, some "exit status 1", "boom"⟩ ∈
      (runInstall (Sample.env Sample.bothFail) [] "" Sample.opts).trace :=
    List.Mem.tail _ (List.Mem.tail _ (List.Mem.head _))
  have h := action_failure_reports_errBuf (Sample.env Sample.bothFail) [] "" Sample.opts
    Sample.merged ⟨Sample.installed Status.failure, some "exit status 1", "boom"⟩
    "exit status 1" hrun rfl
  ⟨hrun, h.1, h.2⟩

/-- C6, counterexample. In the sample run in which the action fails, with
`boom` in `errBuf`, and the store write fails with `disk full`, the store's
error occurs neither in the returned error nor on standard error. -/
theorem store_error_not_carried :
    Event.run Sample.merged ⟨Sample.installed Status.failure, some "exit status 1", "boom"⟩ ∈
        (runInstall (Sample.env Sample.bothFail) [] "" Sample.opts).trace ∧
      Event.store (Sample.installed Status.failure) (some "disk full") ∈
        (runInstall (Sample.env Sample.bothFail) [] "" Sample.opts).trace ∧
      (runInstall (Sample.env Sample.bothFail) [] "" Sample.opts).visible =
        ["install failed: boom"] ∧
      ¬ (runInstall (Sample.env Sample.bothFail) [] "" Sample.opts).carries "disk full" := by
  refine ⟨List.Mem.tail _ (List.Mem.tail _ (List.Mem.head _)),
    List.Mem.tail _ (List.Mem.tail _ (List.Mem.tail _ (List.Mem.head _))), rfl, ?_⟩
  have hv : (runInstall (Sample.env Sample.bothFail) [] "" Sample.opts).visible =
      ["install failed: boom"] := rfl
  unfold Outcome.carries
  rw [hv]
  decide

/-- C6, amended. In every run in which the action fails, what the caller gets
to see (the returned error and the text on standard error) is the same
whatever `installationStore.Store` does: the store's error is dropped. -/
theorem store_error_dropped_on_action_failure (env : Env σ β δ) (s : σ) (appname : String)
    (opts0 : installOptions) (c : Claim) (r : RunResult) (e : Error)
    (Store2 : σ → Claim → σ × Option Error)
    (hrun : Event.run c r ∈ (runInstall env s appname opts0).trace)
    (hfail : r.err = some e) :
    (runInstall { env with Store := Store2 } s appname opts0).err =
        (runInstall env s appname opts0).err ∧
      (runInstall { env with Store := Store2 } s appname opts0).visible =
        (runInstall env s appname opts0).visible ∧
      Event.store r.claim (Store2 s r.claim).2 ∈
        (runInstall { env with Store := Store2 } s appname opts0).trace := by
  obtain ⟨bndl, seen, driverImpl, creds, hcb, hr, ho⟩ := run_logged env s appname opts0 c r hrun
  have hcb2 : ConfigBuilt { env with Store := Store2 } s appname
      (targetOpts { env with Store := Store2 } opts0) bndl seen driverImpl c creds := hcb
  have ho2 := configBuilt_outcome { env with Store := Store2 } s appname opts0 bndl seen
    driverImpl c creds hcb2
  have hr2 : ({ env with Store := Store2 } : Env σ β δ).Run driverImpl c creds = r := hr.symm
  rw [ho2, ho, hr2]
  simp [Outcome.visible, finalError, hfail, fullLog]

/-- Witness of C6, amended: the failing action of the sample run, with a store
write that succeeds and one that fails. -/
theorem store_error_dropped_on_action_failure_witness :
    Event.run Sample.merged ⟨Sample.installed Status.failure, some "exit status 1", "boom"⟩ ∈
        (runInstall (Sample.env Sample.actionFailure) [] "" Sample.opts).trace ∧
      (runInstall { Sample.env Sample.actionFailure with Store := Sample.Store true } [] ""
          Sample.opts).visible =
        (runInstall (Sample.env Sample.actionFailure) [] "" Sample.opts).visible ∧
      Event.store (Sample.installed Status.failure) (some "disk full") ∈
        (runInstall { Sample.env Sample.actionFailure with Store := Sample.Store true } [] ""
          Sample.opts).trace :=
  have hrun : Event.run Sample.merged
      ⟨Sample.installed Status.failure, some "exit status 1", "boom"⟩ ∈
      (runInstall (Sample.env Sample.actionFailure) [] "" Sample.opts).trace :=
    List.Mem.tail _ (List.Mem.tail _ (List.Mem.head _))
  have h := store_error_dropped_on_action_failure (Sample.env Sample.actionFailure) [] ""
    Sample.opts Sample.merged ⟨Sample.installed Status.failure, some "exit status 1", "boom"⟩
    "exit status 1" (Sample.Store true) hrun rfl
  ⟨hrun, h.2.1, h.2.2⟩

/-- C7, counterexample. Installing `myapp` over its failed installation when no
credential can be resolved: the guard lets the install through with the warning,
the run stops at credential validation, `installationStore.Store` is not called
and the old record stays. -/
theorem install_over_failed_not_overwritten :
    Sample.isInstallationFailed (Sample.record Status.failure) = true ∧
      runInstall (Sample.env Sample.noCredentials) [Sample.record Status.failure] ""
          Sample.opts = Sample.overFailedOutcome ∧
      (∀ c r, Event.store c r ∉ Sample.overFailedOutcome.trace) ∧
      Sample.overFailedOutcome.store = [Sample.record Status.failure] := by
  refine ⟨rfl, rfl, ?_, rfl⟩
  intro c r h
  simp [Sample.overFailedOutcome] at h

/-- C7, amended. In every run in which `installationStore.Read` returns a failed
installation, the guard does not reject: the warning is written and the run goes
on to construct the claim; and when the steps up to the action succeed, the
action is run and `installationStore.Store` is called with the new record,
whatever the action returned. -/
theorem install_over_failed_proceeds (env : Env σ β δ) (s : σ) (appname : String)
    (opts0 : installOptions) (n : String) (inst : Claim)
    (hread : Event.read n (.ok inst) ∈ (runInstall env s appname opts0).trace)
    (hfailed : env.isInstallationFailed inst = true) :
    Event.warning ("WARNING: installing over previously failed installation " ++
          env.quote n ++ "\n") ∈ (runInstall env s appname opts0).trace ∧
      Event.claimNew n ∈ (runInstall env s appname opts0).trace ∧
      ∀ (bndl : Bundle) (seen : List Event) (driverImpl : δ) (c2 : Claim)
        (creds : CredentialSet),
        ConfigBuilt env s appname (targetOpts env opts0) bndl seen driverImpl c2 creds →
        Event.run c2 (env.Run driverImpl c2 creds) ∈ (runInstall env s appname opts0).trace ∧
        Event.store (env.Run driverImpl c2 creds).claim
            (env.Store s (env.Run driverImpl c2 creds).claim).2 ∈
          (runInstall env s appname opts0).trace ∧
        (runInstall env s appname opts0).store =
          (env.Store s (env.Run driverImpl c2 creds).claim).1 := by
  obtain ⟨rest, ht⟩ := read_failed_logged env s appname opts0 n inst hread hfailed
  refine ⟨?_, ?_, ?_⟩
  · rw [ht]
    simp [overrideWarning]
  · rw [ht]
    simp
  · intro bndl seen driverImpl c2 creds hcb
    rw [configBuilt_outcome env s appname opts0 bndl seen driverImpl c2 creds hcb]
    simp [fullLog]

/-- Witness of C7, amended: installing `myapp` over its failed installation,
with an action that fails again. -/
theorem install_over_failed_proceeds_witness :
    Event.read "myapp" (.ok (Sample.record Status.failure)) ∈
        (runInstall (Sample.env Sample.actionFailure) [Sample.record Status.failure] ""
          Sample.opts).trace ∧
      Sample.isInstallationFailed (Sample.record Status.failure) = true ∧
      Event.warning "WARNING: installing over previously failed installation \"myapp\"\n" ∈
        (runInstall (Sample.env Sample.actionFailure) [Sample.record Status.failure] ""
          Sample.opts).trace ∧
      (runInstall (Sample.env Sample.actionFailure) [Sample.record Status.failure] ""
          Sample.opts).store = [Sample.installed Status.failure] :=
  have hread : Event.read "myapp" (.ok (Sample.record Status.failure)) ∈
      (runInstall (Sample.env Sample.actionFailure) [Sample.record Status.failure] ""
        Sample.opts).trace := List.Mem.head _
  have h := install_over_failed_proceeds (Sample.env Sample.actionFailure)
    [Sample.record Status.failure] "" Sample.opts "myapp" (Sample.record Status.failure)
    hread rfl
  ⟨hread, rfl, h.1,
    (h.2.2 Sample.bundle
      [Event.read "myapp" (.ok (Sample.record Status.failure)),
       Event.warning "WARNING: installing over previously failed installation \"myapp\"\n"]
      () Sample.merged [("docker.context", "default")]
      ⟨(), Sample.fresh, ⟨⟨rfl, rfl, rfl, rfl⟩, rfl⟩, rfl, rfl, rfl, rfl, rfl⟩).2.2⟩

/-- C8, counterexample. `docker app install --name myapp` with no record for
`myapp` and a bundle that cannot be resolved: `runInstall` fails and the store
holds no record for `myapp` afterwards. -/
theorem no_record_after_resolution_failure :
    Sample.Read [] "myapp" = .error "not found" ∧
      (runInstall (Sample.env Sample.noBundle) [] "" Sample.namedOpts).err = some "not found" ∧
      (runInstall (Sample.env Sample.noBundle) [] "" Sample.namedOpts).trace = [] ∧
      Sample.Read (runInstall (Sample.env Sample.noBundle) [] "" Sample.namedOpts).store
        "myapp" = .error "not found" :=
  ⟨rfl, rfl, rfl, rfl⟩

/-- C8, amended. Take a store whose successful write of a record makes the
record readable under its name, and a claim constructor, merger and action that
keep the name of the claim.  For every name `n` for which the store holds no
record before the call: if `runInstall` returns without having run the action
(a failure on the target, the bundle, the guard or the configuration), it
returns an error, the store is as it was and still holds no record for `n`; if
`n` is the installation name of the run, the action was run and the store write
succeeded, the store holds a record for `n` afterwards, whether the action
succeeded or failed. -/
theorem record_exists_after_store (env : Env σ β δ) (s : σ) (appname : String)
    (opts0 : installOptions) (n : String) (e : Error)
    (hStore : ∀ s0 c, (env.Store s0 c).2 = none →
      ∃ rec, env.Read (env.Store s0 c).1 c.Name = .ok rec)
    (hNew : ∀ x c, env.claimNew x = .ok c → c.Name = x)
    (hMerge : ∀ c ops c2, env.mergeBundleParameters c ops = .ok c2 → c2.Name = c.Name)
    (hRun : ∀ d c creds, (env.Run d c creds).claim.Name = c.Name)
    (hnone : env.Read s n = .error e) :
    ((∀ c r, Event.run c r ∉ (runInstall env s appname opts0).trace) →
        (runInstall env s appname opts0).err ≠ none ∧
        (runInstall env s appname opts0).store = s ∧
        env.Read (runInstall env s appname opts0).store n = .error e) ∧
      (∀ (bndl : Bundle) (c : Claim) (r : RunResult),
        env.resolveBundle appname opts0.pull opts0.insecureRegistries = .ok bndl →
        n = (if opts0.stackName = "" then bndl.Name else opts0.stackName) →
        Event.run c r ∈ (runInstall env s appname opts0).trace →
        (env.Store s r.claim).2 = none →
        ∃ rec, env.Read (runInstall env s appname opts0).store n = .ok rec) := by
  constructor
  · intro hno
    obtain ⟨he, hs⟩ := no_run_store_unchanged env s appname opts0 hno
    exact ⟨he, hs, by rw [hs]; exact hnone⟩
  · intro bndl c r hres hn hrun hw
    obtain ⟨b, seen, driverImpl, creds, hcb, hr, ho⟩ := run_logged env s appname opts0 c r hrun
    obtain ⟨bind, c0, hg, hc0, _, hm, _, _⟩ := hcb
    have hbb : b = bndl := by
      have h1 : env.resolveBundle appname opts0.pull opts0.insecureRegistries = .ok b :=
        hg.1.2.2.1
      rw [hres] at h1
      cases h1
      rfl
    subst hbb
    have hn0 : installationNameOf (targetOpts env opts0) b = n := hn.symm
    obtain ⟨rec, hrec⟩ := hStore s r.claim hw
    have hname : r.claim.Name = n := by
      rw [hr, hRun, hMerge _ _ _ hm]
      simp only []
      rw [hNew _ _ hc0, hn0]
    rw [ho]
    exact ⟨rec, by rw [← hname]; exact hrec⟩

/-- Witness of C8, amended: a first install of `myapp` in which nothing goes
wrong leaves a record for `myapp`, and `docker app install --name myapp` of a
bundle that cannot be resolved leaves none. -/
theorem record_exists_after_store_witness :
    (∀ s0 c, ((Sample.env Sample.allGood).Store s0 c).2 = none →
        ∃ rec, (Sample.env Sample.allGood).Read ((Sample.env Sample.allGood).Store s0 c).1
          c.Name = .ok rec) ∧
      (∀ x c, (Sample.env Sample.allGood).claimNew x = .ok c → c.Name = x) ∧
      (∀ c ops c2, (Sample.env Sample.allGood).mergeBundleParameters c ops = .ok c2 →
        c2.Name = c.Name) ∧
      (∀ d c creds, ((Sample.env Sample.allGood).Run d c creds).claim.Name = c.Name) ∧
      Sample.Read [] "myapp" = .error "not found" ∧
      (∃ rec, Sample.Read (runInstall (Sample.env Sample.allGood) [] "" Sample.opts).store
        "myapp" = .ok rec) ∧
      (runInstall (Sample.env Sample.noBundle) [] "" Sample.namedOpts).store = [] ∧
      Sample.Read (runInstall (Sample.env Sample.noBundle) [] "" Sample.namedOpts).store
        "myapp" = .error "not found" :=
  have hStore : ∀ (sc : Sample.Scenario), sc.storeFails = false →
      ∀ s0 c, ((Sample.env sc).Store s0 c).2 = none →
      ∃ rec, (Sample.env sc).Read ((Sample.env sc).Store s0 c).1 c.Name = .ok rec :=
    fun sc hsc s0 c _ => ⟨c, by simp [Sample.env, hsc, Sample.Store, Sample.Read]⟩
  have hNew : ∀ (sc : Sample.Scenario) x c, (Sample.env sc).claimNew x = .ok c →
      c.Name = x := by
    intro sc x c h
    simp only [Sample.env] at h
    split at h
    · cases h
    · cases h
      rfl
  have hMerge : ∀ (sc : Sample.Scenario) c ops c2,
      (Sample.env sc).mergeBundleParameters c ops = .ok c2 → c2.Name = c.Name := by
    intro sc c ops c2 h
    obtain ⟨b, merged, _, _, rfl⟩ := mergeBundleParameters_ok Sample.names Sample.loadFiles
      c ops c2 h
    rfl
  have hRun : ∀ (sc : Sample.Scenario) d c creds,
      ((Sample.env sc).Run d c creds).claim.Name = c.Name := by
    intro sc d c creds
    simp only [Sample.env]
    split <;> rfl
  have h := record_exists_after_store (Sample.env Sample.allGood) [] "" Sample.opts "myapp"
    "not found" (hStore _ rfl) (hNew _) (hMerge _) (hRun _) rfl
  have h2 := record_exists_after_store (Sample.env Sample.noBundle) [] "" Sample.namedOpts
    "myapp" "not found" (hStore _ rfl) (hNew _) (hMerge _) (hRun _) rfl
  have hno : ∀ c r, Event.run c r ∉
      (runInstall (Sample.env Sample.noBundle) [] "" Sample.namedOpts).trace :=
    fun _ _ hm => nomatch hm
  ⟨hStore _ rfl, hNew _, hMerge _, hRun _, rfl,
    h.2 Sample.bundle Sample.merged ⟨Sample.installed Status.success, none, ""⟩ rfl rfl
      (List.Mem.tail _ (List.Mem.tail _ (List.Mem.head _))) rfl,
    (h2.1 hno).2.1, (h2.1 hno).2.2⟩

/-- C10. The installation name of a run is the `--name` option when that is not
empty and the name of the resolved bundle otherwise.  Every lookup of the guard,
every warning, the guard's error, and every claim construction of the run use
that name, and a record passed to `installationStore.Store` is the claim
constructed under that name, bound to the bundle, merged and run. -/
theorem installation_name_used (env : Env σ β δ) (s : σ) (appname : String)
    (opts0 : installOptions) (bndl : Bundle)
    (hres : env.resolveBundle appname opts0.pull opts0.insecureRegistries = .ok bndl) :
    (∀ x res, Event.read x res ∈ (runInstall env s appname opts0).trace →
        x = (if opts0.stackName = "" then bndl.Name else opts0.stackName) ∧
        res = env.Read s x) ∧
      (∀ text, Event.warning text ∈ (runInstall env s appname opts0).trace →
        text = "WARNING: installing over previously failed installation " ++
          env.quote (if opts0.stackName = "" then bndl.Name else opts0.stackName) ++ "\n") ∧
      (∀ x inst, Event.read x (.ok inst) ∈ (runInstall env s appname opts0).trace →
        env.isInstallationFailed inst = false →
        (runInstall env s appname opts0).err =
          some ("Installation " ++
            env.quote (if opts0.stackName = "" then bndl.Name else opts0.stackName) ++
            " already exists, use 'docker app upgrade' instead")) ∧
      (∀ x, Event.claimNew x ∈ (runInstall env s appname opts0).trace →
        x = (if opts0.stackName = "" then bndl.Name else opts0.stackName)) ∧
      (∀ c res, Event.store c res ∈ (runInstall env s appname opts0).trace →
        ∃ (c0 c2 : Claim) (driverImpl : δ) (creds : CredentialSet),
          env.claimNew (if opts0.stackName = "" then bndl.Name else opts0.stackName) = .ok c0 ∧
          env.mergeBundleParameters { c0 with Bundle := some bndl }
            (installMergeOpts (targetOpts env opts0)) = .ok c2 ∧
          c = (env.Run driverImpl c2 creds).claim) := by
  have hname : ∀ (bind : β) (b : Bundle),
      BundleResolved env appname (targetOpts env opts0) bind b →
      b = bndl ∧ installationNameOf (targetOpts env opts0) b =
        (if opts0.stackName = "" then bndl.Name else opts0.stackName) := by
    intro bind b hb
    have h1 : env.resolveBundle appname opts0.pull opts0.insecureRegistries = .ok b := hb.2.2.1
    rw [hres] at h1
    cases h1
    exact ⟨rfl, rfl⟩
  have hreadname : ∀ x res, Event.read x res ∈ (runInstall env s appname opts0).trace →
      x = (if opts0.stackName = "" then bndl.Name else opts0.stackName) ∧
      res = env.Read s x := by
    intro x res hread
    obtain ⟨bind, b, hb, hx, hr⟩ := read_logged_name env s appname opts0 x res hread
    exact ⟨by rw [hx, (hname bind b hb).2], hr⟩
  refine ⟨hreadname, ?_, ?_, ?_, ?_⟩
  · intro text hw
    rcases runInstall_trace env s appname opts0 with h0 | ⟨bind, b, e, hb, hg, ho⟩ |
      ⟨bind, b, seen, rest, hg, ht, hrest⟩
    · rw [h0] at hw
      cases hw
    · rw [ho] at hw
      simp at hw
    · rw [ht] at hw
      have hseen : Event.warning text ∈ seen := by
        rcases List.mem_append.1 hw with h1 | h1
        · exact h1
        · rcases hrest with ⟨rfl, _⟩ | ⟨c, r, rfl⟩ <;> simp at h1
      rcases installGuard_seen env s _ seen hg.2 _ hseen with h1 | h1
      · cases h1
      · simp only [Event.warning.injEq] at h1
        rw [h1, (hname bind b hg.1).2]
        rfl
  · intro x inst hread hnot
    rw [read_rejected_logged env s appname opts0 x inst hread hnot]
    rw [(hreadname x _ hread).1]
    rfl
  · intro x hc
    rcases runInstall_trace env s appname opts0 with h0 | ⟨bind, b, e, hb, hg, ho⟩ |
      ⟨bind, b, seen, rest, hg, ht, hrest⟩
    · rw [h0] at hc
      cases hc
    · rw [ho] at hc
      simp at hc
    · rw [ht] at hc
      rcases List.mem_append.1 hc with h1 | h1
      · exact ((installGuard_seen_quiet env s _ seen hg.2).2.2 x h1).elim
      · rw [← (hname bind b hg.1).2]
        rcases hrest with ⟨rfl, _⟩ | ⟨c, r, rfl⟩ <;> simpa using h1
  · intro c res hst
    rcases runInstall_trace env s appname opts0 with h0 | ⟨bind, b, e, hb, hg, ho⟩ |
      ⟨bind, b, seen, rest, hg, ht, hrest⟩
    · rw [h0] at hst
      cases hst
    · rw [ho] at hst
      simp at hst
    · rcases hrest with ⟨rfl, _⟩ | ⟨c1, r, rfl⟩
      · rw [ht] at hst
        rcases List.mem_append.1 hst with h1 | h1
        · exact ((installGuard_seen_quiet env s _ seen hg.2).2.1 c res h1).elim
        · simp at h1
      · have hrun : Event.run c1 r ∈ (runInstall env s appname opts0).trace := by
          rw [ht]
          simp
        obtain ⟨b2, seen2, driverImpl, creds, hcb, hr, _⟩ :=
          run_logged env s appname opts0 c1 r hrun
        obtain ⟨bind2, c0, hg2, hc0, _, hm, _, _⟩ := hcb
        obtain ⟨rfl, hn⟩ := hname bind2 b2 hg2.1
        rw [ht] at hst
        have hc : c = r.claim := by
          rcases List.mem_append.1 hst with h1 | h1
          · exact ((installGuard_seen_quiet env s _ seen hg.2).2.1 c res h1).elim
          · simp at h1
            exact h1.1
        rw [hn] at hc0
        exact ⟨c0, c1, driverImpl, creds, hc0, hm, by rw [hc, hr]⟩

/-- Witness of C10: `docker app install --name prod` of the bundle `myapp`. -/
theorem installation_name_used_witness :
    (Sample.env Sample.allGood).resolveBundle "" Sample.prodOpts.pull
        Sample.prodOpts.insecureRegistries = .ok Sample.bundle ∧
      (∀ x res, Event.read x res ∈
          (runInstall (Sample.env Sample.allGood) [] "" Sample.prodOpts).trace →
        x = "prod" ∧ res = Sample.Read [] x) ∧
      (∀ x, Event.claimNew x ∈
          (runInstall (Sample.env Sample.allGood) [] "" Sample.prodOpts).trace → x = "prod") ∧
      ((runInstall (Sample.env Sample.allGood) [] "" Sample.prodOpts).store.map
        (fun c => c.Name)) = ["prod"] :=
  have h := installation_name_used (Sample.env Sample.allGood) [] "" Sample.prodOpts
    Sample.bundle rfl
  ⟨rfl, h.1, h.2.2.2.1, rfl⟩

/-- C9, counterexample. The bundle declares the orchestrator parameter with
default `D`, the parameter file gives it `F`, the command line overrides it with
`O`, and the install runs with `--orchestrator swarm`: the value the action gets
is `swarm`, not `O`. -/
theorem override_of_orchestrator_parameter_lost :
    (bundleDefaults Sample.bundle).lookup "com.docker.app.orchestrator" = some "D" ∧
      Sample.loadFiles Sample.overrideOpts.parametersFiles =
        .ok [("port", "8080"), ("com.docker.app.orchestrator", "F")] ∧
      supplied [("port", "8080"), ("com.docker.app.orchestrator", "F")]
        "com.docker.app.orchestrator" = some "F" ∧
      supplied Sample.overrideOpts.overrides "com.docker.app.orchestrator" = some "O" ∧
      Event.run Sample.overridden
          ⟨{ Sample.overridden with ResultAction := Action.install,
                                    ResultStatus := Status.success }, none, ""⟩ ∈
        (runInstall (Sample.env Sample.allGood) [] "" Sample.overrideOpts).trace ∧
      Sample.overridden.Parameters.lookup "com.docker.app.orchestrator" = some "swarm" ∧
      Sample.overridden.Parameters.lookup "com.docker.app.orchestrator" ≠ some "O" :=
  ⟨rfl, rfl, rfl, rfl, List.Mem.tail _ (List.Mem.tail _ (List.Mem.head _)), rfl, by decide⟩

/-- C9, amended. With the merger of sections 3 and 4.3, the claim that
`runInstall` hands to the action has its parameters overlaid in increasing
precedence: bundle defaults, file values, command-line overrides, orchestrator
values, registry flag.  For every key with default `D` other than the three
keys the last two steps write, the final value is the override `O` when one is
supplied, the file value `F` when a file value but no override is supplied, and
`D` when neither is supplied.  The orchestrator key, when declared, ends with
the orchestrator option, and the registry key with the registry flag. -/
theorem parameter_overlay_precedence (env : Env σ β δ) (s : σ) (appname : String)
    (opts0 : installOptions) (names : ReservedNames)
    (loadFiles : List String → Except Error (List (String × String)))
    (b : Bundle) (c : Claim) (r : RunResult)
    (hmodel : env.mergeBundleParameters = mergeBundleParameters names loadFiles)
    (hres : env.resolveBundle appname opts0.pull opts0.insecureRegistries = .ok b)
    (hrun : Event.run c r ∈ (runInstall env s appname opts0).trace) :
    ∃ vals, loadFiles opts0.parametersFiles = .ok vals ∧
      (∀ k D, (bundleDefaults b).lookup k = some D →
        k ≠ names.orchestrator → k ≠ names.kubernetesNamespace →
        k ≠ names.shareRegistryCreds →
        (∀ O, supplied opts0.overrides k = some O → c.Parameters.lookup k = some O) ∧
        (∀ F, supplied opts0.overrides k = none → supplied vals k = some F →
          c.Parameters.lookup k = some F) ∧
        (supplied opts0.overrides k = none → supplied vals k = none →
          c.Parameters.lookup k = some D)) ∧
      (names.orchestrator ∈ declaredNames b →
        names.orchestrator ≠ names.kubernetesNamespace →
        names.orchestrator ≠ names.shareRegistryCreds →
        c.Parameters.lookup names.orchestrator = some opts0.orchestrator) ∧
      (names.shareRegistryCreds ∈ declaredNames b →
        c.Parameters.lookup names.shareRegistryCreds =
          some (if opts0.sendRegistryAuth then "true" else "false")) := by
  obtain ⟨bndl, seen, driverImpl, creds, hcb, _, _⟩ := run_logged env s appname opts0 c r hrun
  obtain ⟨bind, c0, hg, _, _, hm, _, _⟩ := hcb
  have hbb : bndl = b := by
    have h1 : env.resolveBundle appname opts0.pull opts0.insecureRegistries = .ok bndl :=
      hg.1.2.2.1
    rw [hres] at h1
    cases h1
    rfl
  subst hbb
  rw [hmodel] at hm
  obtain ⟨b2, merged, hb2, happly, hc⟩ := mergeBundleParameters_ok names loadFiles _ _ c hm
  cases hb2
  obtain ⟨vals, hvals, hmerged⟩ := applyMergeOpts_install names loadFiles bndl _ merged happly
  have hparams : c.Parameters = merged := by rw [hc]
  refine ⟨vals, hvals, ?_, ?_, ?_⟩
  · intro k D hD h1 h2 h3
    have hk : c.Parameters.lookup k =
        (match supplied opts0.overrides k with
         | some v => some v
         | none =>
           match supplied vals k with
           | some v => some v
           | none => (bundleDefaults bndl).lookup k) := by
      rw [hparams, hmerged, lookup_overlayInjected_ne _ _ _ _ _ h3,
        lookup_overlayInjected_ne _ _ _ _ _ h2, lookup_overlayInjected_ne _ _ _ _ _ h1,
        lookup_foldl_setParam, lookup_foldl_setParam]
      rfl
    refine ⟨fun O hO => ?_, fun F hO hF => ?_, fun hO hF => ?_⟩
    · rw [hk, hO]
    · rw [hk, hO, hF]
    · rw [hk, hO, hF, hD]
  · intro hd h1 h2
    rw [hparams, hmerged, lookup_overlayInjected_ne _ _ _ _ _ h2,
      lookup_overlayInjected_ne _ _ _ _ _ h1, lookup_overlayInjected_self _ _ _ _ hd]
    rfl
  · intro hd
    rw [hparams, hmerged, lookup_overlayInjected_self _ _ _ _ hd]
    rfl

/-- Witness of C9, amended: the run of `Sample.overrideOpts`, read at the key
`port`, which has the default `80`, the file value `8080` and the override `9090`. -/
theorem parameter_overlay_precedence_witness :
    (Sample.env Sample.allGood).mergeBundleParameters =
        mergeBundleParameters Sample.names Sample.loadFiles ∧
      (Sample.env Sample.allGood).resolveBundle "" Sample.overrideOpts.pull
        Sample.overrideOpts.insecureRegistries = .ok Sample.bundle ∧
      Event.run Sample.overridden
          ⟨{ Sample.overridden with ResultAction := Action.install,
                                    ResultStatus := Status.success }, none, ""⟩ ∈
        (runInstall (Sample.env Sample.allGood) [] "" Sample.overrideOpts).trace ∧
      (bundleDefaults Sample.bundle).lookup "port" = some "80" ∧
      supplied Sample.overrideOpts.overrides "port" = some "9090" ∧
      Sample.overridden.Parameters.lookup "port" = some "9090" :=
  have hrun : Event.run Sample.overridden
      ⟨{ Sample.overridden with ResultAction := Action.install,
                                ResultStatus := Status.success }, none, ""⟩ ∈
      (runInstall (Sample.env Sample.allGood) [] "" Sample.overrideOpts).trace :=
    List.Mem.tail _ (List.Mem.tail _ (List.Mem.head _))
  have h := parameter_overlay_precedence (Sample.env Sample.allGood) [] ""
    Sample.overrideOpts Sample.names Sample.loadFiles Sample.bundle Sample.overridden
    ⟨{ Sample.overridden with ResultAction := Action.install,
                              ResultStatus := Status.success }, none, ""⟩ rfl rfl hrun
  ⟨rfl, rfl, hrun, rfl, rfl,
    h.elim fun _ hv =>
      (hv.2.1 "port" "80" rfl (by decide) (by decide) (by decide)).1 "9090" rfl⟩

end Contract

end DockerApp
